import Mathlib

/-!
Shallow embedding of the mtgvillage price-checking core.

The embedding covers, translated from the repository source:
* `scripts/mtg_price_checker.py` — the two result reducers
  (`process_tcgplayer_results`, `process_conductcommerce_results`) and the
  per-card, per-store query `check_card_prices`;
* `api/check-prices.py` — the serverless batch handler (`api_*` definitions);
* `scripts/local_backend_server.py` — the local development server's batch
  handler (`lapi_*` definitions).

Modelling conventions:
* A JSON numeric price is a rational number `ℚ`; the untyped "n/a" sentinel
  mixed with numbers in the Python dictionaries is modelled as `Option ℚ`
  (`none` = the string "n/a").  Likewise `lowest_price_store` is an
  `Option String` with `none` for "n/a".
* JSON objects with possibly-missing fields are structures with `Option`
  fields; Python's `d.get(key, default)` becomes `Option.getD`.
* Python dictionaries written in insertion order are association lists; a
  `d.get(k, default)` lookup is `pyGet` (first binding wins, which agrees
  with the dictionary since the code never rebinds a key to a new value).
* Network I/O is an oracle: `resp : String → String → VendorResponse` gives
  the (already failure-downgraded) upstream responses per (card, store), and
  an exception oracle `exc : String → Option String` stands for a per-card
  exception escaping from the per-card processing (`none` = no exception).
-/

namespace MTGVillage

/-! ## Data model -/

/-- The two supported store wire dialects (`store_config['type']`). -/
inductive StoreType
  | tcgplayer_pro
  | conductcommerce
  deriving DecidableEq, Repr

/-- A priced, quantity-bearing sub-item of a listing: a `sku` in the
TCGPlayer-Pro dialect or a `variant` in the ConductCommerce dialect.
Both fields may be absent from the JSON (`sku.get('quantity', 0)`,
`sku.get('price', 0.0)`), hence `Option`. -/
structure Sku where
  quantity : Option Int
  price : Option ℚ
  deriving DecidableEq, Repr

/-- A TCGPlayer-Pro search product; `product['id']` is accessed with
brackets in the source, so it is a required field. -/
structure Product where
  id : Int
  deriving DecidableEq, Repr

/-- A TCGPlayer-Pro inventory entry: `item.get('productId')` (may be
missing) and `item.get('skus', [])`. -/
structure InventoryItem where
  productId : Option Int
  skus : List Sku
  deriving DecidableEq, Repr

/-- A ConductCommerce listing with its `listing.get('variants', [])`. -/
structure Listing where
  variants : List Sku
  deriving DecidableEq, Repr

/-- The ephemeral price/quantity pair collected while reducing. -/
structure PQPair where
  price : ℚ
  quantity : Int
  deriving DecidableEq, Repr

/-- The reduced per-(card, store) result returned by `check_card_prices`
and both reducers. -/
structure CardVendorResult where
  card_name : String
  availability : String
  price : Option ℚ
  quantity : Int
  deriving DecidableEq, Repr

/-! ## The result reducers (`mtg_price_checker.py`) -/

/-- Comparison used by `all_skus.sort(key=lambda x: x['price'])`. -/
def priceLE (a b : PQPair) : Prop := a.price ≤ b.price

instance : DecidableRel priceLE := fun a b =>
  inferInstanceAs (Decidable (a.price ≤ b.price))

instance : IsTotal PQPair priceLE := ⟨fun a b => le_total a.price b.price⟩

instance : IsTrans PQPair priceLE := ⟨fun _ _ _ h h' => le_trans h h'⟩

/-- The Python in-place stable sort by price. -/
def sortByPrice (l : List PQPair) : List PQPair := l.insertionSort priceLE

/-- The shared loop body of both reducers: default missing fields to 0 and
keep the pair only when `quantity > 0`. -/
def skuPair (sku : Sku) : Option PQPair :=
  let quantity := sku.quantity.getD 0
  let price := sku.price.getD 0
  if quantity > 0 then some ⟨price, quantity⟩ else none

/-- The pair-collection loop of `process_tcgplayer_results`: join each
inventory entry against the product map (skipping entries whose
`productId` is missing or not among the searched products), then collect
every sku with positive quantity. -/
def tcgCollect (products : List Product) (inventory_data : List InventoryItem) :
    List PQPair :=
  (inventory_data.filter (fun item =>
      match item.productId with
      | some pid => products.any (fun product => product.id = pid)
      | none => false)).flatMap
    (fun item => item.skus.filterMap skuPair)

/-- The pair-collection loop of `process_conductcommerce_results`. -/
def ccCollect (listings : List Listing) : List PQPair :=
  listings.flatMap (fun listing => listing.variants.filterMap skuPair)

/-- The all-"n/a" `CardVendorResult` literal that the source repeats. -/
def naResult (card_name : String) : CardVendorResult :=
  { card_name, availability := "n/a", price := none, quantity := 0 }

/-- `MTGPriceChecker.process_tcgplayer_results`: collect the pairs, and if
any were found sort them by price, answer the first (lowest) price and the
sum of the quantities; otherwise the all-"n/a" result.  (The source sums
over `all_skus` after the in-place sort, hence the sum over `sorted`.) -/
def process_tcgplayer_results (card_name : String) (products : List Product)
    (inventory_data : List InventoryItem) : CardVendorResult :=
  let all_skus := tcgCollect products inventory_data
  if all_skus ≠ [] then
    let sorted := sortByPrice all_skus
    { card_name
      availability := "Available"
      price := some (sorted.headD ⟨0, 0⟩).price
      quantity := (sorted.map PQPair.quantity).sum }
  else
    naResult card_name

/-- `MTGPriceChecker.process_conductcommerce_results`: same consolidation
over the variants of all listings. -/
def process_conductcommerce_results (card_name : String)
    (listings : List Listing) : CardVendorResult :=
  let all_variants := ccCollect listings
  if all_variants ≠ [] then
    let sorted := sortByPrice all_variants
    { card_name
      availability := "Available"
      price := some (sorted.headD ⟨0, 0⟩).price
      quantity := (sorted.map PQPair.quantity).sum }
  else
    naResult card_name

/-! ## The per-card, per-store query (`check_card_prices`) -/

/-- A configured store: its display name and wire dialect. -/
structure MTGStore where
  name : String
  store_type : StoreType
  deriving DecidableEq, Repr

/-- Python dictionary / `.get` lookup on an association list (first binding
wins; the embedded code never rebinds a key to a different value). -/
def pyGet {α : Type} : List (String × α) → String → Option α
  | [], _ => none
  | (k, v) :: rest, key => if k = key then some v else pyGet rest key

/-- The upstream responses for one (card, store) query, after the adapter
has already downgraded transport failures and malformed JSON to empty
sequences: the DialectA `products.items` array, the DialectA inventory
array the store would answer for the searched ids, and the DialectB
`result.listings` array. -/
structure VendorResponse where
  products : List Product
  inventory : List InventoryItem
  listings : List Listing
  deriving DecidableEq, Repr

/-- `MTGStore.get_inventory`: an empty id list short-circuits to `[]`
without a network call; otherwise the upstream answer. -/
def get_inventory (product_ids : List Int) (upstream : List InventoryItem) :
    List InventoryItem :=
  if product_ids = [] then [] else upstream

/-- `MTGPriceChecker.check_card_prices`: unknown store is answered with the
all-"n/a" result; an empty search result likewise; the ConductCommerce
dialect reduces directly from the search listings; the TCGPlayer-Pro
dialect fetches inventory for the searched product ids first and answers
all-"n/a" when that comes back empty.  (The source tests search emptiness
before dispatching on the store type; the dispatch is hoisted here, with
each dialect testing its own search array — observably the same.) -/
def check_card_prices (stores : List (String × MTGStore))
    (resp : String → String → VendorResponse)
    (card_name store_key : String) : CardVendorResult :=
  match pyGet stores store_key with
  | none => naResult card_name
  | some store =>
    let r := resp card_name store_key
    match store.store_type with
    | .conductcommerce =>
      if r.listings = [] then naResult card_name
      else process_conductcommerce_results card_name r.listings
    | .tcgplayer_pro =>
      if r.products = [] then naResult card_name
      else
        let product_ids := r.products.map Product.id
        let inventory_data := get_inventory product_ids r.inventory
        if inventory_data = [] then naResult card_name
        else process_tcgplayer_results card_name r.products inventory_data

/-! ## Per-card aggregate records (both server entry points) -/

/-- The wide per-card record: the per-store `{store}_price` /
`{store}_availability` dictionary entries in insertion order, the computed
`lowest_price` / `lowest_price_store`, and the optional `error` annotation
of a failed card. -/
structure CardRecord where
  card_name : String
  fields : List (String × Option ℚ × String)
  lowest_price : Option ℚ
  lowest_price_store : Option String
  error : Option String
  deriving DecidableEq, Repr

/-- `result.get(f'{store_key}_price', 'n/a')`. -/
def CardRecord.priceOf (r : CardRecord) (store_key : String) : Option ℚ :=
  match pyGet r.fields store_key with
  | some pv => pv.1
  | none => none

/-- `result.get(f'{store_key}_availability', 'n/a')`. -/
def CardRecord.availOf (r : CardRecord) (store_key : String) : String :=
  match pyGet r.fields store_key with
  | some pv => pv.2
  | none => "n/a"

/-- `min(store_prices.keys(), key=lambda k: store_prices[k])` together with
the looked-up minimum value: a left-to-right scan over the dictionary's
insertion order in which the earlier key wins ties. -/
def minByValue : List (String × ℚ) → Option (String × ℚ)
  | [] => none
  | kv :: rest =>
    match minByValue rest with
    | none => some kv
    | some kv' => if kv.2 ≤ kv'.2 then some kv else some kv'

/-- The per-card record builder of `api/check-prices.py` (`do_POST`,
single-store and multi-store modes). -/
def api_process_card (stores : List (String × MTGStore))
    (resp : String → String → VendorResponse)
    (available_stores selected_stores : List String)
    (card_name : String) : CardRecord :=
  if selected_stores.length = 1 then
    let store_key := selected_stores.headD ""
    let result := check_card_prices stores resp card_name store_key
    let fields := available_stores.map (fun store =>
      (store, if store = store_key then (result.price, result.availability)
              else (none, "n/a")))
    match result.price with
    | some p =>
      { card_name, fields, lowest_price := some p,
        lowest_price_store := some store_key, error := none }
    | none =>
      { card_name, fields, lowest_price := none,
        lowest_price_store := none, error := none }
  else
    let checked := selected_stores.map (fun store_key =>
      (store_key, check_card_prices stores resp card_name store_key))
    let sel_fields := checked.map (fun c => (c.1, (c.2.price, c.2.availability)))
    let store_prices := checked.filterMap (fun c =>
      c.2.price.map (fun p => (c.1, p)))
    let un_fields := (available_stores.filter
        (fun store_key => !selected_stores.contains store_key)).map
      (fun store_key => (store_key, ((none : Option ℚ), "n/a")))
    let fields := sel_fields ++ un_fields
    match minByValue store_prices with
    | some kv =>
      { card_name, fields, lowest_price := some kv.2,
        lowest_price_store := some kv.1, error := none }
    | none =>
      { card_name, fields, lowest_price := none,
        lowest_price_store := none, error := none }

/-- The per-card record builder `LocalApiHandler._process_card` of
`scripts/local_backend_server.py`.  It differs from the serverless one only
in the single-store mode, which re-reads the price out of the record
(`result.get(f'{store_key}_price', 'n/a')`) instead of using the query
result directly. -/
def lapi_process_card (stores : List (String × MTGStore))
    (resp : String → String → VendorResponse)
    (available_stores selected_stores : List String)
    (card_name : String) : CardRecord :=
  if selected_stores.length = 1 then
    let store_key := selected_stores.headD ""
    let store_result := check_card_prices stores resp card_name store_key
    let fields := available_stores.map (fun store =>
      (store, if store = store_key then (store_result.price, store_result.availability)
              else (none, "n/a")))
    let price := match pyGet fields store_key with
      | some pv => pv.1
      | none => none
    match price with
    | some p =>
      { card_name, fields, lowest_price := some p,
        lowest_price_store := some store_key, error := none }
    | none =>
      { card_name, fields, lowest_price := none,
        lowest_price_store := none, error := none }
  else
    let checked := selected_stores.map (fun store_key =>
      (store_key, check_card_prices stores resp card_name store_key))
    let sel_fields := checked.map (fun c => (c.1, (c.2.price, c.2.availability)))
    let store_prices := checked.filterMap (fun c =>
      c.2.price.map (fun p => (c.1, p)))
    let un_fields := (available_stores.filter
        (fun store_key => !selected_stores.contains store_key)).map
      (fun store_key => (store_key, ((none : Option ℚ), "n/a")))
    let fields := sel_fields ++ un_fields
    match minByValue store_prices with
    | some kv =>
      { card_name, fields, lowest_price := some kv.2,
        lowest_price_store := some kv.1, error := none }
    | none =>
      { card_name, fields, lowest_price := none,
        lowest_price_store := none, error := none }

/-! ## Batch accumulation and the two handlers -/

/-- One store's running `{'available': …, 'total_price': …}` statistics. -/
structure StoreStats where
  available : Nat
  total_price : ℚ
  deriving DecidableEq, Repr

/-- Key order of a Python dict comprehension over a list: first occurrence
of each key (`seen` accumulates the keys already emitted). -/
def dedupFirstGo : List String → List String → List String
  | [], _ => []
  | x :: xs, seen =>
    if x ∈ seen then dedupFirstGo xs seen else x :: dedupFirstGo xs (x :: seen)

/-- Key order of a Python dict comprehension over a list: first occurrence
of each key. -/
def dedupFirst (l : List String) : List String := dedupFirstGo l []

/-- `{store: {'available': 0, 'total_price': 0.0} for store in selected_stores}`. -/
def initStats (selected_stores : List String) : List (String × StoreStats) :=
  (dedupFirst selected_stores).map (fun store => (store, ⟨0, 0⟩))

/-- In-place `store_stats[store_key]['available'] += 1;
…['total_price'] += price` on the (unique) binding of `store_key`. -/
def bumpStats : List (String × StoreStats) → String → ℚ → List (String × StoreStats)
  | [], _, _ => []
  | (k, s) :: rest, key, p =>
    if k = key then
      (k, { available := s.available + 1, total_price := s.total_price + p }) :: rest
    else
      (k, s) :: bumpStats rest key p

/-- The per-card statistics update of `api/check-prices.py`: for each
selected store, count the card and add its price when the record's price
field is numeric and its availability field is "Available". -/
def api_accumulate (selected_stores : List String) (result : CardRecord)
    (stats : List (String × StoreStats)) : List (String × StoreStats) :=
  selected_stores.foldl (fun acc store_key =>
    match result.priceOf store_key with
    | some p =>
      if result.availOf store_key = "Available" then bumpStats acc store_key p else acc
    | none => acc) stats

/-- The identical per-card statistics update of `local_backend_server.py`. -/
def lapi_accumulate (selected_stores : List String) (result : CardRecord)
    (stats : List (String × StoreStats)) : List (String × StoreStats) :=
  selected_stores.foldl (fun acc store_key =>
    match result.priceOf store_key with
    | some p =>
      if result.availOf store_key = "Available" then bumpStats acc store_key p else acc
    | none => acc) stats

/-- The running state of one batch: the records so far, the per-store
statistics and the running `overall_lowest_total`. -/
structure BatchState where
  results : List CardRecord
  store_stats : List (String × StoreStats)
  overall_lowest_total : ℚ
  deriving DecidableEq, Repr

/-- The all-"n/a" record the serverless handler emits for a card whose
processing raised: note that it carries no error annotation. -/
def api_error_record (available_stores : List String) (card_name : String) :
    CardRecord :=
  { card_name
    fields := available_stores.map (fun store_key => (store_key, (none, "n/a")))
    lowest_price := none
    lowest_price_store := none
    error := none }

/-- The all-"n/a" record the local server emits for a failed card,
carrying `error_result["error"] = str(exc)`. -/
def lapi_error_record (available_stores : List String) (card_name exc : String) :
    CardRecord :=
  { card_name
    fields := available_stores.map (fun store_key => (store_key, (none, "n/a")))
    lowest_price := none
    lowest_price_store := none
    error := some exc }

/-- One iteration of the per-card loop of `api/check-prices.py`: the
`try` body appends the record, updates the statistics and the running
lowest total; the `except` arm appends the (unannotated) error record and
leaves the statistics untouched. -/
def api_batch_step (available_stores selected_stores : List String)
    (proc : String → Except String CardRecord)
    (st : BatchState) (card_name : String) : BatchState :=
  match proc card_name with
  | .ok result =>
    { results := st.results ++ [result]
      store_stats := api_accumulate selected_stores result st.store_stats
      overall_lowest_total :=
        match result.lowest_price with
        | some lp => st.overall_lowest_total + lp
        | none => st.overall_lowest_total }
  | .error _ =>
    { results := st.results ++ [api_error_record available_stores card_name]
      store_stats := st.store_stats
      overall_lowest_total := st.overall_lowest_total }

/-- One iteration of the per-card loop of `local_backend_server.py`; its
`except` arm annotates the error record with the exception text. -/
def lapi_batch_step (available_stores selected_stores : List String)
    (proc : String → Except String CardRecord)
    (st : BatchState) (card_name : String) : BatchState :=
  match proc card_name with
  | .ok result =>
    { results := st.results ++ [result]
      store_stats := lapi_accumulate selected_stores result st.store_stats
      overall_lowest_total :=
        match result.lowest_price with
        | some lp => st.overall_lowest_total + lp
        | none => st.overall_lowest_total }
  | .error e =>
    { results := st.results ++ [lapi_error_record available_stores card_name e]
      store_stats := st.store_stats
      overall_lowest_total := st.overall_lowest_total }

/-- The serverless per-card loop over the whole batch.  `proc` is the
per-card `try` body (`Except.error` models a raised exception). -/
def api_run_batch (available_stores selected_stores : List String)
    (proc : String → Except String CardRecord)
    (card_names : List String) : BatchState :=
  card_names.foldl (api_batch_step available_stores selected_stores proc)
    { results := [], store_stats := initStats selected_stores,
      overall_lowest_total := 0 }

/-- The local server's per-card loop over the whole batch. -/
def lapi_run_batch (available_stores selected_stores : List String)
    (proc : String → Except String CardRecord)
    (card_names : List String) : BatchState :=
  card_names.foldl (lapi_batch_step available_stores selected_stores proc)
    { results := [], store_stats := initStats selected_stores,
      overall_lowest_total := 0 }

/-- One store's entry in the response summary. -/
structure StoreSummary where
  name : String
  available : Nat
  total_price : ℚ
  deriving DecidableEq, Repr

/-- The response `summary` object. -/
structure Summary where
  total_cards : Nat
  store_stats : List (String × StoreSummary)
  overall_lowest_total : ℚ
  deriving DecidableEq, Repr

/-- Summary construction of `api/check-prices.py` (lines 142-155). -/
def api_build_summary (stores : List (String × MTGStore))
    (selected_stores : List String) (total_cards : Nat)
    (stats : List (String × StoreStats)) (overall : ℚ) : Summary :=
  { total_cards
    store_stats := (dedupFirst selected_stores).map (fun store_key =>
      let store_name := match pyGet stores store_key with
        | some s => s.name
        | none => ""
      let st := (pyGet stats store_key).getD ⟨0, 0⟩
      (store_key,
        { name := store_name, available := st.available,
          total_price := st.total_price }))
    overall_lowest_total := overall }

/-- The identical summary construction of `local_backend_server.py`. -/
def lapi_build_summary (stores : List (String × MTGStore))
    (selected_stores : List String) (total_cards : Nat)
    (stats : List (String × StoreStats)) (overall : ℚ) : Summary :=
  { total_cards
    store_stats := (dedupFirst selected_stores).map (fun store_key =>
      let store_name := match pyGet stores store_key with
        | some s => s.name
        | none => ""
      let st := (pyGet stats store_key).getD ⟨0, 0⟩
      (store_key,
        { name := store_name, available := st.available,
          total_price := st.total_price }))
    overall_lowest_total := overall }

/-! ## Request text parsing and validation -/

/-- The characters Python's default `str.strip()` removes. -/
def pyWhitespace : List Char := [' ', '\t', '\n', '\r', '\x0b', '\x0c']

def isPyWS (c : Char) : Bool := pyWhitespace.contains c

/-- `str.strip()` on the underlying character list. -/
def pyStripL (l : List Char) : List Char :=
  ((l.dropWhile isPyWS).reverse.dropWhile isPyWS).reverse

/-- `str.strip()`. -/
def pyStrip (s : String) : String := ⟨pyStripL s.data⟩

/-- `str.split('\n')` on the underlying character list: always at least
one (possibly empty) segment. -/
def splitNewlineL : List Char → List (List Char)
  | [] => [[]]
  | c :: rest =>
    if c = '\n' then [] :: splitNewlineL rest
    else
      match splitNewlineL rest with
      | [] => [[c]]
      | seg :: segs => (c :: seg) :: segs

/-- `card_text.split('\n')`. -/
def splitLines (s : String) : List String :=
  (splitNewlineL s.data).map (fun l => ⟨l⟩)

/-- `[line.strip() for line in card_text.split('\n') if line.strip()]`. -/
def parse_card_names (card_text : String) : List String :=
  ((splitLines card_text).map pyStrip).filter (fun line => line ≠ "")

/-- The validation failures both handlers can answer with (HTTP 400).
`invalidStores` carries the offending keys as reported in the message. -/
inductive Rejection
  | noCards
  | noValidCardNames
  | noStoresSelected
  | invalidStores (keys : List String)
  deriving DecidableEq, Repr

/-- The observable outcome of one batch request. -/
inductive BatchOutcome
  | rejected (r : Rejection)
  | success (results : List CardRecord) (summary : Summary)
      (selected_stores_echo : List String)
  deriving DecidableEq, Repr

/-- The `do_POST` batch handler of `api/check-prices.py`: validation in
source order, then the per-card loop and the summary.  The per-card `try`
body is `api_process_card`; the exception oracle `exc` tells which cards
raise (the message set is unordered in the source, modelled as the keys in
first-occurrence order). -/
def api_handle_check_prices (stores : List (String × MTGStore))
    (resp : String → String → VendorResponse) (exc : String → Option String)
    (cards_input : String) (selected_stores : List String) : BatchOutcome :=
  let card_text := pyStrip cards_input
  if card_text = "" then .rejected .noCards
  else
    let card_names := parse_card_names card_text
    if card_names = [] then .rejected .noValidCardNames
    else if selected_stores = [] then .rejected .noStoresSelected
    else
      let available_stores := stores.map Prod.fst
      let invalid_stores := dedupFirst (selected_stores.filter
        (fun s => !available_stores.contains s))
      if invalid_stores ≠ [] then .rejected (.invalidStores invalid_stores)
      else
        let proc := fun card_name =>
          match exc card_name with
          | some e => Except.error e
          | none => Except.ok
              (api_process_card stores resp available_stores selected_stores card_name)
        let st := api_run_batch available_stores selected_stores proc card_names
        .success st.results
          (api_build_summary stores selected_stores card_names.length
            st.store_stats st.overall_lowest_total)
          selected_stores

/-- The `_handle_check_prices` batch handler of
`scripts/local_backend_server.py`; identical validation except that the
invalid-store keys are sorted in the message. -/
def lapi_handle_check_prices (stores : List (String × MTGStore))
    (resp : String → String → VendorResponse) (exc : String → Option String)
    (cards_input : String) (selected_stores : List String) : BatchOutcome :=
  let card_text := pyStrip cards_input
  if card_text = "" then .rejected .noCards
  else
    let card_names := parse_card_names card_text
    if card_names = [] then .rejected .noValidCardNames
    else if selected_stores = [] then .rejected .noStoresSelected
    else
      let available_stores := stores.map Prod.fst
      let invalid_stores := dedupFirst (selected_stores.filter
        (fun s => !available_stores.contains s))
      if invalid_stores ≠ [] then
        .rejected (.invalidStores
          (invalid_stores.insertionSort (fun a b : String => a ≤ b)))
      else
        let proc := fun card_name =>
          match exc card_name with
          | some e => Except.error e
          | none => Except.ok
              (lapi_process_card stores resp available_stores selected_stores card_name)
        let st := lapi_run_batch available_stores selected_stores proc card_names
        .success st.results
          (lapi_build_summary stores selected_stores card_names.length
            st.store_stats st.overall_lowest_total)
          selected_stores

/-! ## Derived observables used in the statements -/

/-- The record the serverless per-card loop appends for one card: the
processed record, or the (unannotated) error record when the card's
processing raised. -/
def api_rec_for (available_stores : List String)
    (proc : String → Except String CardRecord) (card_name : String) : CardRecord :=
  match proc card_name with
  | .ok r => r
  | .error _ => api_error_record available_stores card_name

/-- The record the local server's per-card loop appends for one card. -/
def lapi_rec_for (available_stores : List String)
    (proc : String → Except String CardRecord) (card_name : String) : CardRecord :=
  match proc card_name with
  | .ok r => r
  | .error e => lapi_error_record available_stores card_name e

/-- The prices of store `v` that the statistics accumulation counts: one
entry per record whose `v` price field is numeric and whose `v`
availability field is "Available". -/
def countedPrices (v : String) (records : List CardRecord) : List ℚ :=
  records.filterMap (fun r =>
    match r.priceOf v with
    | some p => if r.availOf v = "Available" then some p else none
    | none => none)

/-- The per-record `lowest_price` property (claim C1) relative to the
selected stores: `lowest_price` is "n/a" exactly when every selected
store's price field is "n/a", and otherwise it is the minimum of the
numeric selected-store prices, achieved by `lowest_price_store`'s own
price field. -/
def LowestPriceSpec (selected_stores : List String) (r : CardRecord) : Prop :=
  (r.lowest_price = none ↔ ∀ sk ∈ selected_stores, r.priceOf sk = none) ∧
  (∀ q, r.lowest_price = some q →
    (∃ sk ∈ selected_stores, r.priceOf sk = some q) ∧
    (∀ sk ∈ selected_stores, ∀ p, r.priceOf sk = some p → q ≤ p) ∧
    (∃ sk, r.lowest_price_store = some sk ∧ r.priceOf sk = some q))

/-- The field-value invariant (claim C9) of every `CardVendorResult` the
checker produces: "Available" iff numeric price iff positive quantity, and
the "n/a" case is exactly the all-"n/a" tuple. -/
def GoodCVR (r : CardVendorResult) : Prop :=
  (r.availability = "Available" ↔ r.price.isSome = true) ∧
  (r.price.isSome = true ↔ 0 < r.quantity) ∧
  (r.availability = "Available" ∨
    (r.availability = "n/a" ∧ r.price = none ∧ r.quantity = 0))

/-! ## Helper lemmas: sorting -/

theorem sortByPrice_perm (l : List PQPair) : (sortByPrice l).Perm l :=
  List.perm_insertionSort priceLE l

theorem sortByPrice_sorted (l : List PQPair) : (sortByPrice l).Sorted priceLE :=
  List.sorted_insertionSort priceLE l

theorem sortByPrice_ne_nil {l : List PQPair} (h : l ≠ []) : sortByPrice l ≠ [] := by
  intro hs
  have hp := sortByPrice_perm l
  rw [hs] at hp
  exact h hp.symm.eq_nil

theorem sortByPrice_sum_quantity (l : List PQPair) :
    ((sortByPrice l).map PQPair.quantity).sum = (l.map PQPair.quantity).sum :=
  ((sortByPrice_perm l).map PQPair.quantity).sum_eq

theorem sortByPrice_head_mem {l : List PQPair} (h : l ≠ []) (d : PQPair) :
    (sortByPrice l).headD d ∈ l := by
  have hs := sortByPrice_ne_nil h
  cases hh : sortByPrice l with
  | nil => exact absurd hh hs
  | cons a t =>
    have : a ∈ sortByPrice l := by rw [hh]; exact List.mem_cons_self a t
    have := (sortByPrice_perm l).mem_iff.mp this
    simpa [hh] using this

theorem sortByPrice_head_le {l : List PQPair} (h : l ≠ []) (d : PQPair) :
    ∀ x ∈ l, ((sortByPrice l).headD d).price ≤ x.price := by
  intro x hx
  have hs := sortByPrice_ne_nil h
  have hmem : x ∈ sortByPrice l := (sortByPrice_perm l).mem_iff.mpr hx
  have hsorted := sortByPrice_sorted l
  cases hh : sortByPrice l with
  | nil => exact absurd hh hs
  | cons a t =>
    rw [hh] at hmem hsorted
    rcases List.mem_cons.mp hmem with rfl | hxt
    · simp
    · exact (List.pairwise_cons.mp hsorted).1 x hxt

/-! ## Helper lemmas: pair collection -/

theorem skuPair_eq_some {sku : Sku} {p : PQPair} (h : skuPair sku = some p) :
    0 < p.quantity ∧ p.price = sku.price.getD 0 ∧ p.quantity = sku.quantity.getD 0 := by
  simp only [skuPair] at h
  split at h
  · rename_i hq
    cases h
    exact ⟨hq, rfl, rfl⟩
  · cases h

theorem tcgCollect_pos {products : List Product} {inventory_data : List InventoryItem} :
    ∀ p ∈ tcgCollect products inventory_data, 0 < p.quantity := by
  intro p hp
  unfold tcgCollect at hp
  rcases List.mem_flatMap.mp hp with ⟨item, _, hsku⟩
  rcases List.mem_filterMap.mp hsku with ⟨sku, _, hpair⟩
  exact (skuPair_eq_some hpair).1

theorem ccCollect_pos {listings : List Listing} :
    ∀ p ∈ ccCollect listings, 0 < p.quantity := by
  intro p hp
  unfold ccCollect at hp
  rcases List.mem_flatMap.mp hp with ⟨listing, _, hsku⟩
  rcases List.mem_filterMap.mp hsku with ⟨sku, _, hpair⟩
  exact (skuPair_eq_some hpair).1

theorem quantity_sum_pos {l : List PQPair} (hne : l ≠ [])
    (hpos : ∀ p ∈ l, 0 < p.quantity) : 0 < (l.map PQPair.quantity).sum := by
  induction l with
  | nil => exact absurd rfl hne
  | cons a t ih =>
    have ha : 0 < a.quantity := hpos a (List.mem_cons_self a t)
    cases t with
    | nil => simpa using ha
    | cons b t' =>
      have ht : 0 < ((b :: t').map PQPair.quantity).sum :=
        ih (by simp) (fun p hp => hpos p (List.mem_cons_of_mem a hp))
      simp only [List.map_cons, List.sum_cons] at ht ⊢
      omega

theorem quantity_sum_nonneg {l : List PQPair}
    (hpos : ∀ p ∈ l, 0 < p.quantity) : 0 ≤ (l.map PQPair.quantity).sum := by
  induction l with
  | nil => simp
  | cons a t ih =>
    have ha : 0 < a.quantity := hpos a (List.mem_cons_self a t)
    have ht := ih (fun p hp => hpos p (List.mem_cons_of_mem a hp))
    simp only [List.map_cons, List.sum_cons]
    omega

/-! ## Helper lemmas: association-list lookup -/

theorem pyGet_map_self {α : Type} (g : String → α) :
    ∀ (l : List String) (k : String),
      pyGet (l.map (fun s => (s, g s))) k = if k ∈ l then some (g k) else none := by
  intro l
  induction l with
  | nil => intro k; simp [pyGet]
  | cons a t ih =>
    intro k
    simp only [List.map_cons, pyGet]
    by_cases hak : a = k
    · subst hak
      simp
    · rw [if_neg hak, ih k]
      by_cases hk : k ∈ t
      · simp [hk, List.mem_cons, Ne.symm hak]
      · simp [hk, List.mem_cons, Ne.symm hak]

theorem pyGet_append {α : Type} :
    ∀ (l₁ l₂ : List (String × α)) (k : String),
      pyGet (l₁ ++ l₂) k =
        match pyGet l₁ k with
        | some v => some v
        | none => pyGet l₂ k := by
  intro l₁
  induction l₁ with
  | nil => intro l₂ k; simp [pyGet]
  | cons a t ih =>
    intro l₂ k
    obtain ⟨ka, va⟩ := a
    simp only [List.cons_append, pyGet]
    by_cases h : ka = k
    · simp [h]
    · simp only [if_neg h]
      exact ih l₂ k

/-! ## Helper lemmas: minByValue -/

theorem minByValue_eq_none {l : List (String × ℚ)} :
    minByValue l = none ↔ l = [] := by
  cases l with
  | nil => simp [minByValue]
  | cons kv rest =>
    rw [minByValue]
    cases hrest : minByValue rest with
    | none => simp
    | some kv' =>
      dsimp only
      by_cases hle : kv.2 ≤ kv'.2 <;> simp [hle]

theorem minByValue_mem : ∀ {l : List (String × ℚ)} {kv : String × ℚ},
    minByValue l = some kv → kv ∈ l := by
  intro l
  induction l with
  | nil => intro kv h; cases h
  | cons a rest ih =>
    intro kv h
    rw [minByValue] at h
    cases hrest : minByValue rest with
    | none =>
      rw [hrest] at h
      dsimp only at h
      cases h
      exact List.mem_cons_self _ _
    | some kv' =>
      rw [hrest] at h
      dsimp only at h
      by_cases hle : a.2 ≤ kv'.2
      · rw [if_pos hle] at h
        cases h
        exact List.mem_cons_self _ _
      · rw [if_neg hle] at h
        cases h
        exact List.mem_cons_of_mem a (ih hrest)

theorem minByValue_le : ∀ {l : List (String × ℚ)} {kv : String × ℚ},
    minByValue l = some kv → ∀ x ∈ l, kv.2 ≤ x.2 := by
  intro l
  induction l with
  | nil => intro kv h; cases h
  | cons a rest ih =>
    intro kv h x hx
    rw [minByValue] at h
    cases hrest : minByValue rest with
    | none =>
      rw [hrest] at h
      dsimp only at h
      cases h
      have : rest = [] := minByValue_eq_none.mp hrest
      subst this
      rcases List.mem_cons.mp hx with rfl | hx'
      · exact le_refl _
      · cases hx'
    | some kv' =>
      rw [hrest] at h
      dsimp only at h
      by_cases hle : a.2 ≤ kv'.2
      · rw [if_pos hle] at h
        cases h
        rcases List.mem_cons.mp hx with rfl | hx'
        · exact le_refl _
        · exact le_trans hle (ih hrest x hx')
      · rw [if_neg hle] at h
        cases h
        rcases List.mem_cons.mp hx with rfl | hx'
        · exact le_of_lt (lt_of_not_le hle)
        · exact ih hrest x hx'

/-! ## Helper lemmas: dedupFirst -/

theorem mem_dedupFirstGo (y : String) :
    ∀ (l seen : List String), y ∈ dedupFirstGo l seen ↔ (y ∈ l ∧ y ∉ seen) := by
  intro l
  induction l with
  | nil => intro seen; simp [dedupFirstGo]
  | cons x xs ih =>
    intro seen
    rw [dedupFirstGo]
    by_cases hx : x ∈ seen
    · rw [if_pos hx, ih seen]
      constructor
      · rintro ⟨h1, h2⟩
        exact ⟨List.mem_cons_of_mem x h1, h2⟩
      · rintro ⟨h1, h2⟩
        rcases List.mem_cons.mp h1 with rfl | h1'
        · exact absurd hx h2
        · exact ⟨h1', h2⟩
    · rw [if_neg hx]
      constructor
      · intro h
        rcases List.mem_cons.mp h with rfl | h'
        · exact ⟨List.mem_cons_self _ _, hx⟩
        · obtain ⟨h1, h2⟩ := (ih (x :: seen)).mp h'
          refine ⟨List.mem_cons_of_mem x h1, fun hy => h2 (List.mem_cons_of_mem x hy)⟩
      · rintro ⟨h1, h2⟩
        rcases List.mem_cons.mp h1 with rfl | h1'
        · exact List.mem_cons_self _ _
        · by_cases hyx : y = x
          · subst hyx
            exact List.mem_cons_self _ _
          · refine List.mem_cons_of_mem x ((ih (x :: seen)).mpr ⟨h1', ?_⟩)
            intro hy
            rcases List.mem_cons.mp hy with h | h
            · exact hyx h
            · exact h2 h

theorem mem_dedupFirst (l : List String) (y : String) :
    y ∈ dedupFirst l ↔ y ∈ l := by
  rw [dedupFirst, mem_dedupFirstGo]
  simp

theorem dedupFirst_eq_nil {l : List String} : dedupFirst l = [] ↔ l = [] := by
  cases l with
  | nil => simp [dedupFirst, dedupFirstGo]
  | cons x xs => simp [dedupFirst, dedupFirstGo]

theorem dedupFirstGo_of_nodup :
    ∀ (l seen : List String), l.Nodup → (∀ y ∈ l, y ∉ seen) →
      dedupFirstGo l seen = l := by
  intro l
  induction l with
  | nil => intro seen _ _; rfl
  | cons x xs ih =>
    intro seen hnd hdisj
    have hx : x ∉ seen := hdisj x (List.mem_cons_self _ _)
    rw [dedupFirstGo, if_neg hx]
    congr 1
    refine ih (x :: seen) (List.nodup_cons.mp hnd).2 ?_
    intro y hy hmem
    rcases List.mem_cons.mp hmem with rfl | h
    · exact (List.nodup_cons.mp hnd).1 hy
    · exact hdisj y (List.mem_cons_of_mem x hy) h

theorem dedupFirst_of_nodup {l : List String} (h : l.Nodup) : dedupFirst l = l := by
  rw [dedupFirst]
  exact dedupFirstGo_of_nodup l [] h (by intro y _ hy; cases hy)

/-! ## Helper lemmas: the reducers -/

theorem process_tcg_pos {products : List Product} {inventory_data : List InventoryItem}
    (c : String) (h : tcgCollect products inventory_data ≠ []) :
    process_tcgplayer_results c products inventory_data =
      { card_name := c
        availability := "Available"
        price := some ((sortByPrice (tcgCollect products inventory_data)).headD ⟨0, 0⟩).price
        quantity := ((sortByPrice (tcgCollect products inventory_data)).map PQPair.quantity).sum } := by
  simp only [process_tcgplayer_results]
  rw [if_pos h]

theorem process_tcg_nil {products : List Product} {inventory_data : List InventoryItem}
    (c : String) (h : tcgCollect products inventory_data = []) :
    process_tcgplayer_results c products inventory_data = naResult c := by
  simp only [process_tcgplayer_results]
  rw [h]
  simp

theorem process_cc_pos {listings : List Listing}
    (c : String) (h : ccCollect listings ≠ []) :
    process_conductcommerce_results c listings =
      { card_name := c
        availability := "Available"
        price := some ((sortByPrice (ccCollect listings)).headD ⟨0, 0⟩).price
        quantity := ((sortByPrice (ccCollect listings)).map PQPair.quantity).sum } := by
  simp only [process_conductcommerce_results]
  rw [if_pos h]

theorem process_cc_nil {listings : List Listing}
    (c : String) (h : ccCollect listings = []) :
    process_conductcommerce_results c listings = naResult c := by
  simp only [process_conductcommerce_results]
  rw [h]
  simp

theorem head_sortByPrice_facts {pairs : List PQPair} (h : pairs ≠ []) :
    ((sortByPrice pairs).headD ⟨0, 0⟩).price ∈ pairs.map PQPair.price ∧
    ∀ q ∈ pairs.map PQPair.price, ((sortByPrice pairs).headD ⟨0, 0⟩).price ≤ q := by
  constructor
  · exact List.mem_map_of_mem _ (sortByPrice_head_mem h _)
  · intro q hq
    rcases List.mem_map.mp hq with ⟨x, hx, rfl⟩
    exact sortByPrice_head_le h _ x hx

theorem goodCVR_naResult (c : String) : GoodCVR (naResult c) := by
  refine ⟨?_, ?_, Or.inr ⟨rfl, rfl, rfl⟩⟩ <;> simp [naResult]

theorem goodCVR_process_tcg (c : String) (products : List Product)
    (inventory_data : List InventoryItem) :
    GoodCVR (process_tcgplayer_results c products inventory_data) := by
  by_cases h : tcgCollect products inventory_data = []
  · rw [process_tcg_nil c h]
    exact goodCVR_naResult c
  · rw [process_tcg_pos c h]
    have hpos : 0 < ((sortByPrice (tcgCollect products inventory_data)).map PQPair.quantity).sum := by
      rw [sortByPrice_sum_quantity]
      exact quantity_sum_pos h tcgCollect_pos
    exact ⟨iff_of_true rfl rfl, iff_of_true rfl hpos, Or.inl rfl⟩

theorem goodCVR_process_cc (c : String) (listings : List Listing) :
    GoodCVR (process_conductcommerce_results c listings) := by
  by_cases h : ccCollect listings = []
  · rw [process_cc_nil c h]
    exact goodCVR_naResult c
  · rw [process_cc_pos c h]
    have hpos : 0 < ((sortByPrice (ccCollect listings)).map PQPair.quantity).sum := by
      rw [sortByPrice_sum_quantity]
      exact quantity_sum_pos h ccCollect_pos
    exact ⟨iff_of_true rfl rfl, iff_of_true rfl hpos, Or.inl rfl⟩

theorem goodCVR_check (stores : List (String × MTGStore))
    (resp : String → String → VendorResponse) (card_name store_key : String) :
    GoodCVR (check_card_prices stores resp card_name store_key) := by
  unfold check_card_prices
  cases pyGet stores store_key with
  | none => exact goodCVR_naResult card_name
  | some store =>
    obtain ⟨sname, stype⟩ := store
    cases stype with
    | conductcommerce =>
      dsimp only
      split
      · exact goodCVR_naResult card_name
      · exact goodCVR_process_cc card_name _
    | tcgplayer_pro =>
      dsimp only
      split
      · exact goodCVR_naResult card_name
      · split
        · exact goodCVR_naResult card_name
        · exact goodCVR_process_tcg card_name _ _

/-! ## Claim C2 -/

/-- C2: for every reduction input, the resulting quantity is the sum of the
quantities over exactly the collected pairs (all of which have quantity
> 0, so pairs with quantity ≤ 0 never contribute); when the collected pair
set is non-empty the result is "Available" with price the true minimum
price among the included pairs, and when it is empty the result is the
availability "n/a" / price "n/a" / quantity 0 tuple. -/
theorem c2_reduction_correct (card_name : String) (products : List Product)
    (inventory_data : List InventoryItem) (listings : List Listing) :
    (∀ p ∈ tcgCollect products inventory_data, 0 < p.quantity) ∧
    (process_tcgplayer_results card_name products inventory_data).quantity =
      ((tcgCollect products inventory_data).map PQPair.quantity).sum ∧
    (tcgCollect products inventory_data ≠ [] →
      (process_tcgplayer_results card_name products inventory_data).availability
          = "Available" ∧
      ∃ q, (process_tcgplayer_results card_name products inventory_data).price = some q ∧
        q ∈ (tcgCollect products inventory_data).map PQPair.price ∧
        ∀ p ∈ (tcgCollect products inventory_data).map PQPair.price, q ≤ p) ∧
    (tcgCollect products inventory_data = [] →
      process_tcgplayer_results card_name products inventory_data = naResult card_name) ∧
    (∀ p ∈ ccCollect listings, 0 < p.quantity) ∧
    (process_conductcommerce_results card_name listings).quantity =
      ((ccCollect listings).map PQPair.quantity).sum ∧
    (ccCollect listings ≠ [] →
      (process_conductcommerce_results card_name listings).availability = "Available" ∧
      ∃ q, (process_conductcommerce_results card_name listings).price = some q ∧
        q ∈ (ccCollect listings).map PQPair.price ∧
        ∀ p ∈ (ccCollect listings).map PQPair.price, q ≤ p) ∧
    (ccCollect listings = [] →
      process_conductcommerce_results card_name listings = naResult card_name) := by
  refine ⟨tcgCollect_pos, ?_, ?_, process_tcg_nil card_name, ccCollect_pos, ?_, ?_,
    process_cc_nil card_name⟩
  · by_cases h : tcgCollect products inventory_data = []
    · rw [process_tcg_nil card_name h, h]
      rfl
    · rw [process_tcg_pos card_name h]
      exact sortByPrice_sum_quantity _
  · intro h
    rw [process_tcg_pos card_name h]
    obtain ⟨hmem, hle⟩ := head_sortByPrice_facts h
    exact ⟨rfl, _, rfl, hmem, hle⟩
  · by_cases h : ccCollect listings = []
    · rw [process_cc_nil card_name h, h]
      rfl
    · rw [process_cc_pos card_name h]
      exact sortByPrice_sum_quantity _
  · intro h
    rw [process_cc_pos card_name h]
    obtain ⟨hmem, hle⟩ := head_sortByPrice_facts h
    exact ⟨rfl, _, rfl, hmem, hle⟩

/-- Witness for C2 at a concrete input: one matched inventory sku with
price 3 / quantity 2 yields an "Available" result, and a listing whose
only variant has quantity 0 reduces to the all-"n/a" result. -/
theorem c2_witness :
    (process_tcgplayer_results "w" [⟨1⟩] [⟨some 1, [⟨some 2, some 3⟩]⟩]).availability
        = "Available" ∧
    process_conductcommerce_results "w" [⟨[⟨some 0, some 4⟩]⟩] = naResult "w" := by
  obtain ⟨-, -, hC, -, -, -, -, hH⟩ :=
    c2_reduction_correct "w" [⟨1⟩] [⟨some 1, [⟨some 2, some 3⟩]⟩] [⟨[⟨some 0, some 4⟩]⟩]
  exact ⟨(hC (by decide)).1, hH (by decide)⟩

/-! ## Claim C3 (corrected) -/

/-- C3 counterexample: a variant with a missing `price` field but positive
quantity is NOT excluded by the `quantity > 0` filter — it contributes
with the defaulted price 0, which even becomes the reported minimum, so
the result is not the all-"n/a" record the claim demands. -/
theorem c3_counterexample :
    process_conductcommerce_results "c" [⟨[⟨some 3, none⟩]⟩] =
      { card_name := "c", availability := "Available",
        price := some 0, quantity := 3 } ∧
    process_conductcommerce_results "c" [⟨[⟨some 3, none⟩]⟩] ≠ naResult "c" := by
  decide

/-- C3 (amended): a variant with a missing `quantity` field defaults to 0
and is excluded by the `quantity > 0` filter; a variant with a missing
`price` field defaults its price to 0 and, when its quantity is positive,
does contribute — with price 0 — to the reduced result. -/
theorem c3_missing_fields_amended :
    (∀ sku : Sku, sku.quantity = none → skuPair sku = none) ∧
    (∀ (sku : Sku) (q : Int), sku.quantity = some q → 0 < q → sku.price = none →
      skuPair sku = some ⟨0, q⟩) ∧
    (∀ (c : String) (q : Int), 0 < q →
      process_conductcommerce_results c [⟨[⟨some q, none⟩]⟩] =
        { card_name := c, availability := "Available",
          price := some 0, quantity := q }) := by
  refine ⟨?_, ?_, ?_⟩
  · intro sku hq
    simp [skuPair, hq]
  · intro sku q hq hpos hp
    simp [skuPair, hq, hp, hpos]
  · intro c q hq
    have hcoll : ccCollect [⟨[⟨some q, none⟩]⟩] = [⟨0, q⟩] := by
      simp [ccCollect, skuPair, hq]
    have hne : ccCollect [⟨[⟨some q, none⟩]⟩] ≠ [] := by
      rw [hcoll]
      simp
    rw [process_cc_pos c hne, hcoll]
    simp [sortByPrice, List.insertionSort]

/-- Witness for C3's amended claim at concrete skus. -/
theorem c3_witness :
    skuPair ⟨none, some 5⟩ = none ∧
    skuPair ⟨some 4, none⟩ = some ⟨0, 4⟩ ∧
    process_conductcommerce_results "w3" [⟨[⟨some 2, none⟩]⟩] =
      { card_name := "w3", availability := "Available",
        price := some 0, quantity := 2 } :=
  ⟨c3_missing_fields_amended.1 ⟨none, some 5⟩ rfl,
   c3_missing_fields_amended.2.1 ⟨some 4, none⟩ 4 rfl (by decide) rfl,
   c3_missing_fields_amended.2.2 "w3" 2 (by decide)⟩

/-! ## Claim C5 -/

/-- C5: for every configured card/store pair, an empty adapter search
result (which is also what any transport failure or malformed JSON is
downgraded to) makes `check_card_prices` answer exactly
availability "n/a" / price "n/a" / quantity 0; a TCGPlayer-Pro store whose
inventory fetch comes back empty is answered the same way. -/
theorem c5_empty_search_na (stores : List (String × MTGStore))
    (resp : String → String → VendorResponse) (card_name store_key : String)
    (store : MTGStore) (hstore : pyGet stores store_key = some store) :
    (store.store_type = StoreType.tcgplayer_pro →
      (resp card_name store_key).products = [] →
      check_card_prices stores resp card_name store_key = naResult card_name) ∧
    (store.store_type = StoreType.conductcommerce →
      (resp card_name store_key).listings = [] →
      check_card_prices stores resp card_name store_key = naResult card_name) ∧
    (store.store_type = StoreType.tcgplayer_pro →
      (resp card_name store_key).inventory = [] →
      check_card_prices stores resp card_name store_key = naResult card_name) := by
  unfold check_card_prices
  rw [hstore]
  dsimp only
  refine ⟨?_, ?_, ?_⟩
  · intro hty hempty
    rw [hty]
    simp [hempty]
  · intro hty hempty
    rw [hty]
    simp [hempty]
  · intro hty hempty
    rw [hty]
    dsimp only
    by_cases hp : (resp card_name store_key).products = []
    · simp [hp]
    · rw [if_neg hp]
      have hids : (resp card_name store_key).products.map Product.id ≠ [] := by
        simpa using hp
      rw [get_inventory, if_neg hids, hempty]
      simp

/-- Witness for C5: a configured ConductCommerce store with an empty
search response. -/
theorem c5_witness :
    check_card_prices [("s", ⟨"S", StoreType.conductcommerce⟩)]
      (fun _ _ => ⟨[], [], []⟩) "c" "s" = naResult "c" :=
  (c5_empty_search_na [("s", ⟨"S", StoreType.conductcommerce⟩)]
    (fun _ _ => ⟨[], [], []⟩) "c" "s" ⟨"S", StoreType.conductcommerce⟩
    (by decide)).2.1 rfl rfl

/-! ## Claim C9 -/

/-- C9: every `CardVendorResult` produced by `check_card_prices` and by
both reducers satisfies: availability is "Available" iff the price is
numeric iff the quantity is positive, and otherwise the result is exactly
the availability "n/a" / price "n/a" / quantity 0 tuple. -/
theorem c9_result_invariant (stores : List (String × MTGStore))
    (resp : String → String → VendorResponse) (card_name store_key : String)
    (products : List Product) (inventory_data : List InventoryItem)
    (listings : List Listing) :
    GoodCVR (check_card_prices stores resp card_name store_key) ∧
    GoodCVR (process_tcgplayer_results card_name products inventory_data) ∧
    GoodCVR (process_conductcommerce_results card_name listings) :=
  ⟨goodCVR_check stores resp card_name store_key,
   goodCVR_process_tcg card_name products inventory_data,
   goodCVR_process_cc card_name listings⟩

/-! ## Helper lemmas: record field lookup in the per-card builders -/

theorem single_fields_pyGet (X : Option ℚ × String) :
    ∀ (av : List String) (key : String), key ∈ av →
      pyGet (av.map (fun store =>
        (store, if store = key then X else ((none : Option ℚ), "n/a")))) key = some X := by
  intro av
  induction av with
  | nil => intro key h; cases h
  | cons a t ih =>
    intro key h
    simp only [List.map_cons, pyGet]
    by_cases hak : a = key
    · simp [hak]
    · rw [if_neg hak]
      refine ih key ?_
      rcases List.mem_cons.mp h with rfl | h'
      · exact absurd rfl hak
      · exact h'

theorem multi_fields_pyGet (f : String → CardVendorResult) :
    ∀ (sel : List String) (un_fields : List (String × Option ℚ × String)) (sk : String),
      sk ∈ sel →
      pyGet ((sel.map (fun store_key => (store_key, f store_key))).map
          (fun c => (c.1, (c.2.price, c.2.availability))) ++ un_fields) sk
        = some ((f sk).price, (f sk).availability) := by
  intro sel
  induction sel with
  | nil => intro un sk h; cases h
  | cons a t ih =>
    intro un sk h
    simp only [List.map_cons, List.cons_append, pyGet]
    by_cases hak : a = sk
    · simp [hak]
    · rw [if_neg hak]
      refine ih un sk ?_
      rcases List.mem_cons.mp h with rfl | h'
      · exact absurd rfl hak
      · exact h'

theorem store_prices_mem (f : String → CardVendorResult) (sel : List String)
    (kv : String × ℚ) :
    kv ∈ (sel.map (fun store_key => (store_key, f store_key))).filterMap
        (fun c => c.2.price.map (fun p => (c.1, p))) ↔
      kv.1 ∈ sel ∧ (f kv.1).price = some kv.2 := by
  rw [List.mem_filterMap]
  constructor
  · rintro ⟨x, hx, hfn⟩
    rcases List.mem_map.mp hx with ⟨k, hk, rfl⟩
    rcases Option.map_eq_some'.mp hfn with ⟨p, hp, hkv⟩
    cases hkv
    exact ⟨hk, hp⟩
  · rintro ⟨hk, hp⟩
    refine ⟨(kv.1, f kv.1), List.mem_map_of_mem _ hk, ?_⟩
    rw [hp]
    rfl

theorem store_prices_eq_nil (f : String → CardVendorResult) (sel : List String) :
    (sel.map (fun store_key => (store_key, f store_key))).filterMap
        (fun c => c.2.price.map (fun p => (c.1, p))) = [] ↔
      ∀ k ∈ sel, (f k).price = none := by
  rw [List.filterMap_eq_nil_iff]
  constructor
  · intro h k hk
    have := h (k, f k) (List.mem_map_of_mem _ hk)
    exact Option.map_eq_none'.mp this
  · intro h x hx
    rcases List.mem_map.mp hx with ⟨k, hk, rfl⟩
    rw [Option.map_eq_none']
    exact h k hk

/-! ## Helper lemmas: LowestPriceSpec for the per-card builders -/

theorem lowestSpec_single (stores : List (String × MTGStore))
    (resp : String → String → VendorResponse) (av : List String) (k : String)
    (hk : k ∈ av) (c : String) :
    LowestPriceSpec [k] (lapi_process_card stores resp av [k] c) := by
  have hfields := single_fields_pyGet
    ((check_card_prices stores resp c k).price,
      (check_card_prices stores resp c k).availability) av k hk
  simp only [lapi_process_card]
  rw [if_pos (by simp : ([k] : List String).length = 1)]
  simp only [List.headD]
  rw [hfields]
  dsimp only
  cases hrp : (check_card_prices stores resp c k).price with
  | none =>
    rw [hrp] at hfields
    refine ⟨iff_of_true rfl ?_, ?_⟩
    · intro sk hsk
      rcases List.mem_cons.mp hsk with rfl | h'
      · simp only [CardRecord.priceOf, hfields]
      · cases h'
    · intro q hq
      cases hq
  | some p =>
    rw [hrp] at hfields
    refine ⟨?_, ?_⟩
    · refine iff_of_false (by simp) ?_
      intro hall
      have := hall k (List.mem_cons_self _ _)
      simp only [CardRecord.priceOf, hfields] at this
      cases this
    · intro q hq
      cases hq
      refine ⟨⟨k, List.mem_cons_self _ _, by simp only [CardRecord.priceOf, hfields]⟩, ?_, ?_⟩
      · intro sk hsk p' hp'
        rcases List.mem_cons.mp hsk with rfl | h'
        · simp only [CardRecord.priceOf, hfields] at hp'
          cases hp'
          exact le_refl _
        · cases h'
      · exact ⟨k, rfl, by simp only [CardRecord.priceOf, hfields]⟩

theorem lowestSpec_multi (stores : List (String × MTGStore))
    (resp : String → String → VendorResponse) (av sel : List String) (c : String)
    (hlen : ¬ sel.length = 1) :
    LowestPriceSpec sel (lapi_process_card stores resp av sel c) := by
  simp only [lapi_process_card]
  rw [if_neg hlen]
  have hpf := multi_fields_pyGet (fun sk => check_card_prices stores resp c sk) sel
    ((av.filter (fun store_key => !sel.contains store_key)).map
      (fun store_key => (store_key, ((none : Option ℚ), "n/a"))))
  cases hmin : minByValue ((sel.map (fun store_key =>
      (store_key, check_card_prices stores resp c store_key))).filterMap
      (fun c => c.2.price.map (fun p => (c.1, p)))) with
  | none =>
    have hsp := minByValue_eq_none.mp hmin
    have hall := (store_prices_eq_nil (fun sk => check_card_prices stores resp c sk) sel).mp hsp
    refine ⟨iff_of_true rfl ?_, ?_⟩
    · intro sk hsk
      simp only [CardRecord.priceOf, hpf sk hsk]
      exact hall sk hsk
    · intro q hq
      cases hq
  | some kv =>
    have hkv := (store_prices_mem (fun sk => check_card_prices stores resp c sk) sel kv).mp
      (minByValue_mem hmin)
    refine ⟨?_, ?_⟩
    · refine iff_of_false (by simp) ?_
      intro hall
      have := hall kv.1 hkv.1
      simp only [CardRecord.priceOf, hpf kv.1 hkv.1] at this
      rw [hkv.2] at this
      cases this
    · intro q hq
      cases hq
      refine ⟨⟨kv.1, hkv.1, ?_⟩, ?_, ⟨kv.1, rfl, ?_⟩⟩
      · simp only [CardRecord.priceOf, hpf kv.1 hkv.1]
        exact hkv.2
      · intro sk hsk p' hp'
        simp only [CardRecord.priceOf, hpf sk hsk] at hp'
        have hmem : (sk, p') ∈ (sel.map (fun store_key =>
            (store_key, check_card_prices stores resp c store_key))).filterMap
            (fun c => c.2.price.map (fun p => (c.1, p))) :=
          (store_prices_mem (fun sk => check_card_prices stores resp c sk) sel (sk, p')).mpr
            ⟨hsk, hp'⟩
        exact minByValue_le hmin (sk, p') hmem
      · simp only [CardRecord.priceOf, hpf kv.1 hkv.1]
        exact hkv.2

theorem lapi_lowestSpec (stores : List (String × MTGStore))
    (resp : String → String → VendorResponse) (av sel : List String) (c : String)
    (hsub : ∀ s ∈ sel, s ∈ av) :
    LowestPriceSpec sel (lapi_process_card stores resp av sel c) := by
  by_cases hlen : sel.length = 1
  · obtain ⟨k, rfl⟩ := List.length_eq_one.mp hlen
    exact lowestSpec_single stores resp av k (hsub k (List.mem_cons_self _ _)) c
  · exact lowestSpec_multi stores resp av sel c hlen

/-- The two per-card record builders agree whenever the selected stores
are configured ones: the only textual difference is the single-store
mode's source of the lowest price (query result vs. record field), and
the record field holds exactly the query result's price. -/
theorem process_card_eq (stores : List (String × MTGStore))
    (resp : String → String → VendorResponse)
    (av sel : List String) (c : String)
    (hsub : ∀ s ∈ sel, s ∈ av) :
    api_process_card stores resp av sel c = lapi_process_card stores resp av sel c := by
  by_cases hlen : sel.length = 1
  · obtain ⟨k, rfl⟩ := List.length_eq_one.mp hlen
    have hk : k ∈ av := hsub k (List.mem_cons_self _ _)
    have hfields := single_fields_pyGet
      ((check_card_prices stores resp c k).price,
        (check_card_prices stores resp c k).availability) av k hk
    simp only [api_process_card, lapi_process_card]
    rw [if_pos (by simp : ([k] : List String).length = 1),
      if_pos (by simp : ([k] : List String).length = 1)]
    simp only [List.headD]
    rw [hfields]
  · simp only [api_process_card, lapi_process_card]
    rw [if_neg hlen, if_neg hlen]

/-! ## Claim C1 -/

/-- C1: in every record either per-card builder produces, `lowest_price`
is "n/a" iff every selected store's price field is "n/a"; otherwise it is
the minimum of the numeric selected-store prices in the record, and
`lowest_price_store`'s own price field equals that minimum. -/
theorem c1_lowest_price_invariant (stores : List (String × MTGStore))
    (resp : String → String → VendorResponse)
    (available_stores selected_stores : List String) (card_name : String)
    (hsub : ∀ s ∈ selected_stores, s ∈ available_stores) :
    LowestPriceSpec selected_stores
      (api_process_card stores resp available_stores selected_stores card_name) ∧
    LowestPriceSpec selected_stores
      (lapi_process_card stores resp available_stores selected_stores card_name) := by
  have h := lapi_lowestSpec stores resp available_stores selected_stores card_name hsub
  rw [process_card_eq stores resp available_stores selected_stores card_name hsub]
  exact ⟨h, h⟩

/-- Witness for C1: one configured store, selected, whose query result is
all-"n/a" (empty upstream responses). -/
theorem c1_witness :
    LowestPriceSpec ["s"]
      (api_process_card [("s", ⟨"S", StoreType.conductcommerce⟩)]
        (fun _ _ => ⟨[], [], []⟩) ["s"] ["s"] "w1") ∧
    LowestPriceSpec ["s"]
      (lapi_process_card [("s", ⟨"S", StoreType.conductcommerce⟩)]
        (fun _ _ => ⟨[], [], []⟩) ["s"] ["s"] "w1") :=
  c1_lowest_price_invariant [("s", ⟨"S", StoreType.conductcommerce⟩)]
    (fun _ _ => ⟨[], [], []⟩) ["s"] ["s"] "w1" (by intro s hs; exact hs)

/-! ## Helper lemmas: the per-card batch loops -/

theorem api_run_batch_results_aux (av sel : List String)
    (proc : String → Except String CardRecord) :
    ∀ (cards : List String) (st : BatchState),
      (cards.foldl (api_batch_step av sel proc) st).results =
        st.results ++ cards.map (api_rec_for av proc) := by
  intro cards
  induction cards with
  | nil => intro st; simp
  | cons c rest ih =>
    intro st
    rw [List.foldl_cons, ih]
    cases hp : proc c <;>
      simp [api_batch_step, api_rec_for, hp]

theorem lapi_run_batch_results_aux (av sel : List String)
    (proc : String → Except String CardRecord) :
    ∀ (cards : List String) (st : BatchState),
      (cards.foldl (lapi_batch_step av sel proc) st).results =
        st.results ++ cards.map (lapi_rec_for av proc) := by
  intro cards
  induction cards with
  | nil => intro st; simp
  | cons c rest ih =>
    intro st
    rw [List.foldl_cons, ih]
    cases hp : proc c <;>
      simp [lapi_batch_step, lapi_rec_for, hp]

theorem api_run_batch_results (av sel : List String)
    (proc : String → Except String CardRecord) (cards : List String) :
    (api_run_batch av sel proc cards).results = cards.map (api_rec_for av proc) := by
  rw [api_run_batch, api_run_batch_results_aux]
  rfl

theorem lapi_run_batch_results (av sel : List String)
    (proc : String → Except String CardRecord) (cards : List String) :
    (lapi_run_batch av sel proc cards).results = cards.map (lapi_rec_for av proc) := by
  rw [lapi_run_batch, lapi_run_batch_results_aux]
  rfl

theorem api_run_batch_total_aux (av sel : List String)
    (proc : String → Except String CardRecord) :
    ∀ (cards : List String) (st : BatchState),
      (cards.foldl (api_batch_step av sel proc) st).overall_lowest_total =
        st.overall_lowest_total +
          ((cards.map (api_rec_for av proc)).filterMap CardRecord.lowest_price).sum := by
  intro cards
  induction cards with
  | nil => intro st; simp
  | cons c rest ih =>
    intro st
    rw [List.foldl_cons, ih]
    cases hp : proc c with
    | ok r =>
      cases hlp : r.lowest_price <;>
        simp [api_batch_step, api_rec_for, hp, hlp, add_assoc]
    | error e =>
      simp [api_batch_step, api_rec_for, hp, api_error_record]

theorem lapi_run_batch_total_aux (av sel : List String)
    (proc : String → Except String CardRecord) :
    ∀ (cards : List String) (st : BatchState),
      (cards.foldl (lapi_batch_step av sel proc) st).overall_lowest_total =
        st.overall_lowest_total +
          ((cards.map (lapi_rec_for av proc)).filterMap CardRecord.lowest_price).sum := by
  intro cards
  induction cards with
  | nil => intro st; simp
  | cons c rest ih =>
    intro st
    rw [List.foldl_cons, ih]
    cases hp : proc c with
    | ok r =>
      cases hlp : r.lowest_price <;>
        simp [lapi_batch_step, lapi_rec_for, hp, hlp, add_assoc]
    | error e =>
      simp [lapi_batch_step, lapi_rec_for, hp, lapi_error_record]

/-! ## Helper lemmas: the error records' fields -/

theorem pyGet_const_fields (X : Option ℚ × String) :
    ∀ (av : List String) (v : String),
      pyGet (av.map (fun store_key => (store_key, X))) v =
        if v ∈ av then some X else none := by
  intro av
  induction av with
  | nil => intro v; simp [pyGet]
  | cons a t ih =>
    intro v
    simp only [List.map_cons, pyGet]
    by_cases hav : a = v
    · simp [hav]
    · rw [if_neg hav, ih v]
      by_cases hv : v ∈ t
      · simp [hv, List.mem_cons, Ne.symm hav]
      · simp [hv, List.mem_cons, Ne.symm hav]

theorem api_error_record_priceOf (av : List String) (c v : String) :
    (api_error_record av c).priceOf v = none := by
  simp only [CardRecord.priceOf, api_error_record, pyGet_const_fields]
  by_cases hv : v ∈ av <;> simp [hv]

theorem api_error_record_availOf (av : List String) (c v : String) :
    (api_error_record av c).availOf v = "n/a" := by
  simp only [CardRecord.availOf, api_error_record, pyGet_const_fields]
  by_cases hv : v ∈ av <;> simp [hv]

theorem lapi_error_record_priceOf (av : List String) (c e v : String) :
    (lapi_error_record av c e).priceOf v = none := by
  simp only [CardRecord.priceOf, lapi_error_record, pyGet_const_fields]
  by_cases hv : v ∈ av <;> simp [hv]

theorem lapi_error_record_availOf (av : List String) (c e v : String) :
    (lapi_error_record av c e).availOf v = "n/a" := by
  simp only [CardRecord.availOf, lapi_error_record, pyGet_const_fields]
  by_cases hv : v ∈ av <;> simp [hv]

/-! ## Helper lemmas: statistics accumulation -/

theorem pyGet_initStats (sel : List String) (v : String) (hv : v ∈ sel) :
    pyGet (initStats sel) v = some ⟨0, 0⟩ := by
  rw [initStats]
  have := pyGet_map_self (fun _ => (⟨0, 0⟩ : StoreStats)) (dedupFirst sel) v
  rw [this, if_pos ((mem_dedupFirst sel v).mpr hv)]

theorem api_accumulate_cons (s : String) (rest : List String) (r : CardRecord)
    (stats : List (String × StoreStats)) :
    api_accumulate (s :: rest) r stats =
      api_accumulate rest r
        (match r.priceOf s with
         | some p => if r.availOf s = "Available" then bumpStats stats s p else stats
         | none => stats) := by
  rw [api_accumulate, api_accumulate, List.foldl_cons]

theorem pyGet_bumpStats (key : String) (p : ℚ) :
    ∀ (stats : List (String × StoreStats)) (v : String),
      pyGet (bumpStats stats key p) v =
        if v = key then
          (pyGet stats v).map (fun s => ⟨s.available + 1, s.total_price + p⟩)
        else pyGet stats v := by
  intro stats
  induction stats with
  | nil =>
    intro v
    simp only [bumpStats, pyGet]
    split <;> rfl
  | cons a rest ih =>
    intro v
    obtain ⟨k0, s0⟩ := a
    simp only [bumpStats]
    by_cases h1 : k0 = key
    · subst h1
      by_cases h2 : v = k0
      · subst h2
        simp [pyGet]
      · have h2' : ¬ k0 = v := fun h => h2 h.symm
        simp [pyGet, h2, h2']
    · by_cases h3 : k0 = v
      · have h4 : ¬ v = key := fun h => h1 (h3.trans h)
        rw [if_neg h1, if_neg h4]
        simp [pyGet, h3]
      · rw [if_neg h1]
        simp only [pyGet, if_neg h3]
        exact ih v

theorem pyGet_accumulate_not_mem (r : CardRecord) :
    ∀ (sel : List String) (stats : List (String × StoreStats)) (v : String),
      v ∉ sel →
      pyGet (api_accumulate sel r stats) v = pyGet stats v := by
  intro sel
  induction sel with
  | nil => intro stats v _; rfl
  | cons s rest ih =>
    intro stats v hv
    have hvs : v ≠ s := fun h => hv (h ▸ List.mem_cons_self _ _)
    have hvr : v ∉ rest := fun h => hv (List.mem_cons_of_mem _ h)
    rw [api_accumulate_cons, ih _ v hvr]
    cases hpr : r.priceOf s
    · rfl
    · dsimp only
      by_cases hav : r.availOf s = "Available"
      · rw [if_pos hav, pyGet_bumpStats, if_neg hvs]
      · rw [if_neg hav]

theorem pyGet_accumulate_mem (r : CardRecord) :
    ∀ (sel : List String) (stats : List (String × StoreStats)) (v : String),
      sel.Nodup → v ∈ sel →
      pyGet (api_accumulate sel r stats) v =
        match r.priceOf v with
        | some p =>
          if r.availOf v = "Available" then
            (pyGet stats v).map (fun s => ⟨s.available + 1, s.total_price + p⟩)
          else pyGet stats v
        | none => pyGet stats v := by
  intro sel
  induction sel with
  | nil => intro stats v _ hv; cases hv
  | cons s rest ih =>
    intro stats v hnd hv
    have hnds : s ∉ rest := (List.nodup_cons.mp hnd).1
    have hndr : rest.Nodup := (List.nodup_cons.mp hnd).2
    rw [api_accumulate_cons]
    rcases List.mem_cons.mp hv with rfl | hvr
    · rw [pyGet_accumulate_not_mem r rest _ v hnds]
      cases hpr : r.priceOf v
      · rfl
      · dsimp only
        by_cases hav : r.availOf v = "Available"
        · rw [if_pos hav, if_pos hav, pyGet_bumpStats, if_pos rfl]
        · rw [if_neg hav, if_neg hav]
    · have hvs : v ≠ s := fun h => hnds (h ▸ hvr)
      rw [ih _ v hndr hvr]
      cases hpr : r.priceOf s
      · rfl
      · dsimp only
        by_cases hav : r.availOf s = "Available"
        · rw [if_pos hav, pyGet_bumpStats, if_neg hvs]
        · rw [if_neg hav]

theorem lapi_accumulate_eq : lapi_accumulate = api_accumulate := rfl

theorem countedPrices_cons (v : String) (r : CardRecord) (rs : List CardRecord) :
    countedPrices v (r :: rs) =
      match r.priceOf v with
      | some p => if r.availOf v = "Available" then p :: countedPrices v rs
                  else countedPrices v rs
      | none => countedPrices v rs := by
  simp only [countedPrices, List.filterMap_cons]
  cases hpr : r.priceOf v
  · rfl
  · dsimp only
    by_cases hav : r.availOf v = "Available"
    · rw [if_pos hav, if_pos hav]
    · rw [if_neg hav, if_neg hav]

theorem api_stats_fold (av sel : List String) (proc : String → Except String CardRecord)
    (v : String) (hnd : sel.Nodup) (hv : v ∈ sel) :
    ∀ (cards : List String) (st : BatchState) (a : Nat) (t : ℚ),
      pyGet st.store_stats v = some ⟨a, t⟩ →
      pyGet ((cards.foldl (api_batch_step av sel proc) st).store_stats) v =
        some ⟨a + (countedPrices v (cards.map (api_rec_for av proc))).length,
              t + (countedPrices v (cards.map (api_rec_for av proc))).sum⟩ := by
  intro cards
  induction cards with
  | nil =>
    intro st a t h
    simpa [countedPrices] using h
  | cons c rest ih =>
    intro st a t h
    rw [List.foldl_cons, List.map_cons, countedPrices_cons]
    cases hp : proc c with
    | ok r =>
      have hrec : api_rec_for av proc c = r := by rw [api_rec_for, hp]
      rw [hrec]
      have hstep : (api_batch_step av sel proc st c).store_stats =
          api_accumulate sel r st.store_stats := by rw [api_batch_step, hp]
      cases hpr : r.priceOf v with
      | none =>
        have hs : pyGet (api_batch_step av sel proc st c).store_stats v = some ⟨a, t⟩ := by
          rw [hstep, pyGet_accumulate_mem r sel _ v hnd hv, hpr]
          exact h
        exact ih _ a t hs
      | some p =>
        by_cases hav : r.availOf v = "Available"
        · have hs : pyGet (api_batch_step av sel proc st c).store_stats v =
              some ⟨a + 1, t + p⟩ := by
            rw [hstep, pyGet_accumulate_mem r sel _ v hnd hv, hpr]
            dsimp only
            rw [if_pos hav, h]
            rfl
          have hfin := ih _ (a + 1) (t + p) hs
          rw [hfin]
          dsimp only
          rw [if_pos hav]
          simp only [List.length_cons, List.sum_cons, Option.some.injEq, StoreStats.mk.injEq]
          exact ⟨by omega, by ring⟩
        · have hs : pyGet (api_batch_step av sel proc st c).store_stats v = some ⟨a, t⟩ := by
            rw [hstep, pyGet_accumulate_mem r sel _ v hnd hv, hpr]
            dsimp only
            rw [if_neg hav]
            exact h
          have hfin := ih _ a t hs
          rw [hfin]
          dsimp only
          rw [if_neg hav]
    | error e =>
      have hrec : api_rec_for av proc c = api_error_record av c := by rw [api_rec_for, hp]
      rw [hrec, api_error_record_priceOf]
      have hstep : (api_batch_step av sel proc st c).store_stats = st.store_stats := by
        rw [api_batch_step, hp]
      have hs : pyGet (api_batch_step av sel proc st c).store_stats v = some ⟨a, t⟩ := by
        rw [hstep]
        exact h
      exact ih _ a t hs

theorem lapi_stats_fold (av sel : List String) (proc : String → Except String CardRecord)
    (v : String) (hnd : sel.Nodup) (hv : v ∈ sel) :
    ∀ (cards : List String) (st : BatchState) (a : Nat) (t : ℚ),
      pyGet st.store_stats v = some ⟨a, t⟩ →
      pyGet ((cards.foldl (lapi_batch_step av sel proc) st).store_stats) v =
        some ⟨a + (countedPrices v (cards.map (lapi_rec_for av proc))).length,
              t + (countedPrices v (cards.map (lapi_rec_for av proc))).sum⟩ := by
  intro cards
  induction cards with
  | nil =>
    intro st a t h
    simpa [countedPrices] using h
  | cons c rest ih =>
    intro st a t h
    rw [List.foldl_cons, List.map_cons, countedPrices_cons]
    cases hp : proc c with
    | ok r =>
      have hrec : lapi_rec_for av proc c = r := by rw [lapi_rec_for, hp]
      rw [hrec]
      have hstep : (lapi_batch_step av sel proc st c).store_stats =
          api_accumulate sel r st.store_stats := by
        rw [lapi_batch_step, hp, ← lapi_accumulate_eq]
      cases hpr : r.priceOf v with
      | none =>
        have hs : pyGet (lapi_batch_step av sel proc st c).store_stats v = some ⟨a, t⟩ := by
          rw [hstep, pyGet_accumulate_mem r sel _ v hnd hv, hpr]
          exact h
        exact ih _ a t hs
      | some p =>
        by_cases hav : r.availOf v = "Available"
        · have hs : pyGet (lapi_batch_step av sel proc st c).store_stats v =
              some ⟨a + 1, t + p⟩ := by
            rw [hstep, pyGet_accumulate_mem r sel _ v hnd hv, hpr]
            dsimp only
            rw [if_pos hav, h]
            rfl
          have hfin := ih _ (a + 1) (t + p) hs
          rw [hfin]
          dsimp only
          rw [if_pos hav]
          simp only [List.length_cons, List.sum_cons, Option.some.injEq, StoreStats.mk.injEq]
          exact ⟨by omega, by ring⟩
        · have hs : pyGet (lapi_batch_step av sel proc st c).store_stats v = some ⟨a, t⟩ := by
            rw [hstep, pyGet_accumulate_mem r sel _ v hnd hv, hpr]
            dsimp only
            rw [if_neg hav]
            exact h
          have hfin := ih _ a t hs
          rw [hfin]
          dsimp only
          rw [if_neg hav]
    | error e =>
      have hrec : lapi_rec_for av proc c = lapi_error_record av c e := by
        rw [lapi_rec_for, hp]
      rw [hrec, lapi_error_record_priceOf]
      have hstep : (lapi_batch_step av sel proc st c).store_stats = st.store_stats := by
        rw [lapi_batch_step, hp]
      have hs : pyGet (lapi_batch_step av sel proc st c).store_stats v = some ⟨a, t⟩ := by
        rw [hstep]
        exact h
      exact ih _ a t hs

/-! ## Claim C7 -/

/-- C7: for every batch, a selected store's `available` count is exactly
the number of emitted records whose price field for that store is numeric
with availability "Available", its `total_price` is exactly the sum of the
prices counted that way, and `overall_lowest_total` is the sum of the
records' numeric `lowest_price` values — in both server entry points. -/
theorem c7_summary_accumulation (available_stores selected_stores : List String)
    (proc : String → Except String CardRecord) (card_names : List String) (v : String)
    (hnd : selected_stores.Nodup) (hv : v ∈ selected_stores) :
    (pyGet (api_run_batch available_stores selected_stores proc card_names).store_stats v =
      some ⟨(countedPrices v
              (api_run_batch available_stores selected_stores proc card_names).results).length,
            (countedPrices v
              (api_run_batch available_stores selected_stores proc card_names).results).sum⟩) ∧
    ((api_run_batch available_stores selected_stores proc card_names).overall_lowest_total =
      ((api_run_batch available_stores selected_stores proc card_names).results.filterMap
        CardRecord.lowest_price).sum) ∧
    (pyGet (lapi_run_batch available_stores selected_stores proc card_names).store_stats v =
      some ⟨(countedPrices v
              (lapi_run_batch available_stores selected_stores proc card_names).results).length,
            (countedPrices v
              (lapi_run_batch available_stores selected_stores proc card_names).results).sum⟩) ∧
    ((lapi_run_batch available_stores selected_stores proc card_names).overall_lowest_total =
      ((lapi_run_batch available_stores selected_stores proc card_names).results.filterMap
        CardRecord.lowest_price).sum) := by
  refine ⟨?_, ?_, ?_, ?_⟩
  · rw [api_run_batch_results]
    rw [api_run_batch]
    have := api_stats_fold available_stores selected_stores proc v hnd hv card_names
      { results := [], store_stats := initStats selected_stores, overall_lowest_total := 0 }
      0 0 (pyGet_initStats selected_stores v hv)
    simpa using this
  · rw [api_run_batch_results]
    rw [api_run_batch, api_run_batch_total_aux]
    simp
  · rw [lapi_run_batch_results]
    rw [lapi_run_batch]
    have := lapi_stats_fold available_stores selected_stores proc v hnd hv card_names
      { results := [], store_stats := initStats selected_stores, overall_lowest_total := 0 }
      0 0 (pyGet_initStats selected_stores v hv)
    simpa using this
  · rw [lapi_run_batch_results]
    rw [lapi_run_batch, lapi_run_batch_total_aux]
    simp

/-- Witness for C7: a one-store, one-card batch whose card raises. -/
theorem c7_witness :
    (pyGet (api_run_batch ["s"] ["s"] (fun _ => Except.error "x") ["c"]).store_stats "s" =
      some ⟨(countedPrices "s"
              (api_run_batch ["s"] ["s"] (fun _ => Except.error "x") ["c"]).results).length,
            (countedPrices "s"
              (api_run_batch ["s"] ["s"] (fun _ => Except.error "x") ["c"]).results).sum⟩) ∧
    ((api_run_batch ["s"] ["s"] (fun _ => Except.error "x") ["c"]).overall_lowest_total =
      ((api_run_batch ["s"] ["s"] (fun _ => Except.error "x") ["c"]).results.filterMap
        CardRecord.lowest_price).sum) ∧
    (pyGet (lapi_run_batch ["s"] ["s"] (fun _ => Except.error "x") ["c"]).store_stats "s" =
      some ⟨(countedPrices "s"
              (lapi_run_batch ["s"] ["s"] (fun _ => Except.error "x") ["c"]).results).length,
            (countedPrices "s"
              (lapi_run_batch ["s"] ["s"] (fun _ => Except.error "x") ["c"]).results).sum⟩) ∧
    ((lapi_run_batch ["s"] ["s"] (fun _ => Except.error "x") ["c"]).overall_lowest_total =
      ((lapi_run_batch ["s"] ["s"] (fun _ => Except.error "x") ["c"]).results.filterMap
        CardRecord.lowest_price).sum) :=
  c7_summary_accumulation ["s"] ["s"] (fun _ => Except.error "x") ["c"] "s"
    (by decide) (by decide)

/-! ## Claim C4 (corrected) -/

/-- C4 counterexample: the serverless handler's per-card loop catches the
exception and emits the all-"n/a" record, but that record carries NO
`error` annotation (its `error` field is `none`, not the error text). -/
theorem c4_counterexample :
    (api_run_batch ["s"] ["s"] (fun _ => Except.error "boom") ["CardX"]).results =
      [{ card_name := "CardX", fields := [("s", (none, "n/a"))],
         lowest_price := none, lowest_price_store := none, error := none }] ∧
    ((api_run_batch ["s"] ["s"] (fun _ => Except.error "boom") ["CardX"]).results.map
      CardRecord.error) = [none] := by
  rw [api_run_batch_results]
  exact ⟨rfl, rfl⟩

/-- C4 (amended): both batch handlers catch a per-card exception, emit an
all-NotAvailable record for that card and continue with the remaining
cards (one record per card); the local server's record carries the
`error` annotation with the error text, while the serverless handler's
record carries no annotation. -/
theorem c4_error_handling_amended (available_stores selected_stores : List String)
    (proc : String → Except String CardRecord) (card_name e : String)
    (st : BatchState) (hp : proc card_name = Except.error e) :
    api_batch_step available_stores selected_stores proc st card_name =
      { results := st.results ++ [api_error_record available_stores card_name],
        store_stats := st.store_stats,
        overall_lowest_total := st.overall_lowest_total } ∧
    lapi_batch_step available_stores selected_stores proc st card_name =
      { results := st.results ++ [lapi_error_record available_stores card_name e],
        store_stats := st.store_stats,
        overall_lowest_total := st.overall_lowest_total } ∧
    (lapi_error_record available_stores card_name e).error = some e ∧
    (api_error_record available_stores card_name).error = none ∧
    (∀ v, (api_error_record available_stores card_name).priceOf v = none ∧
      (api_error_record available_stores card_name).availOf v = "n/a" ∧
      (lapi_error_record available_stores card_name e).priceOf v = none ∧
      (lapi_error_record available_stores card_name e).availOf v = "n/a") ∧
    (api_error_record available_stores card_name).lowest_price = none ∧
    (api_error_record available_stores card_name).lowest_price_store = none ∧
    (lapi_error_record available_stores card_name e).lowest_price = none ∧
    (lapi_error_record available_stores card_name e).lowest_price_store = none ∧
    (∀ cards : List String,
      (api_run_batch available_stores selected_stores proc cards).results.length =
        cards.length ∧
      (lapi_run_batch available_stores selected_stores proc cards).results.length =
        cards.length) := by
  refine ⟨by rw [api_batch_step, hp], by rw [lapi_batch_step, hp], rfl, rfl,
    ?_, rfl, rfl, rfl, rfl, ?_⟩
  · intro v
    exact ⟨api_error_record_priceOf _ _ v, api_error_record_availOf _ _ v,
      lapi_error_record_priceOf _ _ _ v, lapi_error_record_availOf _ _ _ v⟩
  · intro cards
    rw [api_run_batch_results, lapi_run_batch_results]
    simp

/-- Witness for C4's amended claim at a concrete failing card. -/
theorem c4_witness :
    lapi_batch_step ["s"] ["s"] (fun _ => Except.error "boom")
        { results := [], store_stats := [], overall_lowest_total := 0 } "CardX" =
      { results := [lapi_error_record ["s"] "CardX" "boom"],
        store_stats := [], overall_lowest_total := 0 } ∧
    (lapi_error_record ["s"] "CardX" "boom").error = some "boom" ∧
    (api_error_record ["s"] "CardX").error = none := by
  obtain ⟨h1, h2, h3, h4, h5, h6, h7, h8, h9, h10⟩ :=
    c4_error_handling_amended ["s"] ["s"] (fun _ => Except.error "boom") "CardX" "boom"
      { results := [], store_stats := [], overall_lowest_total := 0 } rfl
  exact ⟨by simpa using h2, h3, h4⟩

/-! ## Claim C8 -/

theorem api_process_card_name (stores : List (String × MTGStore))
    (resp : String → String → VendorResponse)
    (av sel : List String) (c : String) :
    (api_process_card stores resp av sel c).card_name = c := by
  simp only [api_process_card]
  split
  · split <;> rfl
  · split <;> rfl

theorem lapi_process_card_name (stores : List (String × MTGStore))
    (resp : String → String → VendorResponse)
    (av sel : List String) (c : String) :
    (lapi_process_card stores resp av sel c).card_name = c := by
  simp only [lapi_process_card]
  split
  · split <;> rfl
  · split <;> rfl

theorem map_name_of_names {f : String → CardRecord} (hf : ∀ c, (f c).card_name = c) :
    ∀ l : List String, (l.map f).map CardRecord.card_name = l := by
  intro l
  induction l with
  | nil => rfl
  | cons c rest ih => simp [hf c, ih]

/-- C8: the batch loop emits exactly one record per input card name, in
input order (the record names read back as the input list, so duplicates
yield independent duplicate records), and on a successful request the
summary's `total_cards` equals the number of emitted records — in both
server entry points. -/
theorem c8_one_record_per_card (stores : List (String × MTGStore))
    (resp : String → String → VendorResponse) (exc : String → Option String)
    (available_stores selected_stores card_names : List String) :
    ((api_run_batch available_stores selected_stores (fun card_name =>
        match exc card_name with
        | some e => Except.error e
        | none => Except.ok
            (api_process_card stores resp available_stores selected_stores card_name))
      card_names).results.map CardRecord.card_name = card_names) ∧
    ((lapi_run_batch available_stores selected_stores (fun card_name =>
        match exc card_name with
        | some e => Except.error e
        | none => Except.ok
            (lapi_process_card stores resp available_stores selected_stores card_name))
      card_names).results.map CardRecord.card_name = card_names) ∧
    (∀ (cards_input : String) (res : List CardRecord) (summ : Summary)
        (echo : List String),
      api_handle_check_prices stores resp exc cards_input selected_stores =
        BatchOutcome.success res summ echo →
      summ.total_cards = res.length) ∧
    (∀ (cards_input : String) (res : List CardRecord) (summ : Summary)
        (echo : List String),
      lapi_handle_check_prices stores resp exc cards_input selected_stores =
        BatchOutcome.success res summ echo →
      summ.total_cards = res.length) := by
  refine ⟨?_, ?_, ?_, ?_⟩
  · rw [api_run_batch_results]
    refine map_name_of_names ?_ card_names
    intro c
    rw [api_rec_for]
    cases hexc : exc c
    · exact api_process_card_name stores resp available_stores selected_stores c
    · rfl
  · rw [lapi_run_batch_results]
    refine map_name_of_names ?_ card_names
    intro c
    rw [lapi_rec_for]
    cases hexc : exc c
    · exact lapi_process_card_name stores resp available_stores selected_stores c
    · rfl
  · intro cards_input res summ echo h
    simp only [api_handle_check_prices] at h
    split at h
    · cases h
    · split at h
      · cases h
      · split at h
        · cases h
        · split at h
          · cases h
          · cases h
            rw [api_run_batch_results, List.length_map]
            rfl
  · intro cards_input res summ echo h
    simp only [lapi_handle_check_prices] at h
    split at h
    · cases h
    · split at h
      · cases h
      · split at h
        · cases h
        · split at h
          · cases h
          · cases h
            rw [lapi_run_batch_results, List.length_map]
            rfl

/-- Witness for C8: duplicate card names yield two records in order, and
a concrete successful request's summary counts exactly its records. -/
theorem c8_witness :
    ((api_run_batch ["s"] ["s"] (fun card_name =>
        match (fun _ => (none : Option String)) card_name with
        | some e => Except.error e
        | none => Except.ok
            (api_process_card [("s", ⟨"S", StoreType.conductcommerce⟩)]
              (fun _ _ => ⟨[], [], []⟩) ["s"] ["s"] card_name))
      ["Card A", "Card A"]).results.map CardRecord.card_name = ["Card A", "Card A"]) ∧
    ({ total_cards := 1,
       store_stats := [("s", { name := "S", available := 0, total_price := 0 })],
       overall_lowest_total := 0 } : Summary).total_cards =
      [({ card_name := "Card A", fields := [("s", (none, "n/a"))],
          lowest_price := none, lowest_price_store := none,
          error := none } : CardRecord)].length := by
  refine ⟨(c8_one_record_per_card [("s", ⟨"S", StoreType.conductcommerce⟩)]
    (fun _ _ => ⟨[], [], []⟩) (fun _ => none) ["s"] ["s"] ["Card A", "Card A"]).1, ?_⟩
  exact (c8_one_record_per_card [("s", ⟨"S", StoreType.conductcommerce⟩)]
    (fun _ _ => ⟨[], [], []⟩) (fun _ => none) ["s"] ["s"] ["Card A"]).2.2.1 "Card A"
    [{ card_name := "Card A", fields := [("s", (none, "n/a"))],
       lowest_price := none, lowest_price_store := none, error := none }]
    { total_cards := 1,
      store_stats := [("s", { name := "S", available := 0, total_price := 0 })],
      overall_lowest_total := 0 }
    ["s"] (by decide)

/-! ## Helper lemmas: request text parsing -/

theorem dropWhile_head?_not (p : Char → Bool) :
    ∀ (l : List Char) (c : Char), (l.dropWhile p).head? = some c → p c = false := by
  intro l
  induction l with
  | nil => intro c h; cases h
  | cons a t ih =>
    intro c h
    rw [List.dropWhile_cons] at h
    by_cases hp : p a
    · rw [if_pos hp] at h
      exact ih c h
    · rw [if_neg hp] at h
      cases h
      exact Bool.eq_false_iff.mpr hp

theorem pyStripL_eq_nil_iff (l : List Char) :
    pyStripL l = [] ↔ ∀ c ∈ l, isPyWS c = true := by
  rw [pyStripL, List.reverse_eq_nil_iff, List.dropWhile_eq_nil_iff]
  constructor
  · intro h c hc
    rw [← List.takeWhile_append_dropWhile (p := isPyWS) (l := l)] at hc
    rcases List.mem_append.mp hc with h1 | h1
    · exact List.mem_takeWhile_imp h1
    · exact h c (List.mem_reverse.mpr h1)
  · intro h c hc
    exact h c ((List.dropWhile_sublist isPyWS).subset (List.mem_reverse.mp hc))

theorem pyStripL_head_not_ws {l : List Char} (h : pyStripL l ≠ []) :
    ∃ c t, pyStripL l = c :: t ∧ isPyWS c = false := by
  have hene : List.dropWhile isPyWS (List.dropWhile isPyWS l).reverse ≠ [] := by
    intro h0
    apply h
    rw [pyStripL, h0]
    rfl
  have hdne : List.dropWhile isPyWS l ≠ [] := by
    intro h0
    apply hene
    rw [h0]
    rfl
  obtain ⟨c, hc⟩ : ∃ c, (List.dropWhile isPyWS l).head? = some c := by
    cases hd : List.dropWhile isPyWS l with
    | nil => exact absurd hd hdne
    | cons a t => exact ⟨a, rfl⟩
  have hws : isPyWS c = false := dropWhile_head?_not isPyWS l c hc
  have h1 : (List.dropWhile isPyWS (List.dropWhile isPyWS l).reverse).getLast? =
      (List.dropWhile isPyWS l).reverse.getLast? := by
    conv_rhs => rw [← List.takeWhile_append_dropWhile (p := isPyWS)
      (l := (List.dropWhile isPyWS l).reverse)]
    rw [List.getLast?_append_of_ne_nil _ hene]
  have h2 : (List.dropWhile isPyWS l).reverse.getLast? = some c := by
    rw [List.getLast?_reverse]
    exact hc
  have h3 : (pyStripL l).head? = some c := by
    rw [pyStripL, List.head?_reverse, h1, h2]
  cases hs : pyStripL l with
  | nil => exact absurd hs h
  | cons a t =>
    rw [hs] at h3
    cases h3
    exact ⟨c, t, rfl, hws⟩

theorem splitNewlineL_ne_nil : ∀ l : List Char, splitNewlineL l ≠ [] := by
  intro l
  cases l with
  | nil => simp [splitNewlineL]
  | cons c rest =>
    rw [splitNewlineL]
    by_cases hc : c = '\n'
    · rw [if_pos hc]
      simp
    · rw [if_neg hc]
      cases h : splitNewlineL rest <;> simp

theorem mem_splitNewlineL :
    ∀ (l : List Char) (c : Char), c ∈ l → c ≠ '\n' →
      ∃ seg ∈ splitNewlineL l, c ∈ seg := by
  intro l
  induction l with
  | nil => intro c hc _; cases hc
  | cons a rest ih =>
    intro c hc hcn
    rw [splitNewlineL]
    by_cases ha : a = '\n'
    · rw [if_pos ha]
      rcases List.mem_cons.mp hc with rfl | h'
      · exact absurd ha hcn
      · obtain ⟨seg, hseg, hcseg⟩ := ih c h' hcn
        exact ⟨seg, List.mem_cons_of_mem _ hseg, hcseg⟩
    · rw [if_neg ha]
      cases hsp : splitNewlineL rest with
      | nil => exact absurd hsp (splitNewlineL_ne_nil rest)
      | cons seg segs =>
        rcases List.mem_cons.mp hc with rfl | h'
        · exact ⟨c :: seg, List.mem_cons_self _ _, List.mem_cons_self _ _⟩
        · obtain ⟨seg', hseg', hcseg'⟩ := ih c h' hcn
          rw [hsp] at hseg'
          rcases List.mem_cons.mp hseg' with rfl | h2
          · exact ⟨a :: seg', List.mem_cons_self _ _, List.mem_cons_of_mem _ hcseg'⟩
          · exact ⟨seg', List.mem_cons_of_mem _ h2, hcseg'⟩

theorem parse_card_names_ne_nil {s : String} (h : pyStrip s ≠ "") :
    parse_card_names (pyStrip s) ≠ [] := by
  intro hnil
  rw [parse_card_names] at hnil
  have hall : ∀ seg ∈ splitNewlineL (pyStrip s).data, ∀ c ∈ seg, isPyWS c = true := by
    intro seg hseg c hc
    have hline : pyStrip ⟨seg⟩ = "" := by
      by_contra hne
      have hmem : pyStrip (⟨seg⟩ : String) ∈
          ((splitLines (pyStrip s)).map pyStrip).filter (fun line => line ≠ "") := by
        refine List.mem_filter.mpr ⟨?_, by simpa using hne⟩
        refine List.mem_map_of_mem pyStrip ?_
        rw [splitLines]
        exact List.mem_map_of_mem _ hseg
      rw [hnil] at hmem
      cases hmem
    have hsegnil : pyStripL seg = [] := String.ext_iff.mp hline
    exact (pyStripL_eq_nil_iff seg).mp hsegnil c hc
  have hdata : pyStripL s.data ≠ [] := by
    intro h0
    apply h
    show pyStrip s = ""
    rw [pyStrip, h0]
  obtain ⟨c, t, hct, hws⟩ := pyStripL_head_not_ws hdata
  have hcmem : c ∈ (pyStrip s).data := by
    show c ∈ pyStripL s.data
    rw [hct]
    exact List.mem_cons_self _ _
  have hcn : c ≠ '\n' := by
    intro h0
    rw [h0] at hws
    simp [isPyWS, pyWhitespace] at hws
  obtain ⟨seg, hseg, hcseg⟩ := mem_splitNewlineL (pyStrip s).data c hcmem hcn
  have := hall seg hseg c hcseg
  rw [this] at hws
  cases hws

/-! ## Claim C6 -/

/-- C6: both handlers validate before any per-card work, in source order:
empty (stripped) card text is rejected with the "No cards provided"
condition; then an empty store selection is rejected with "No stores
selected"; then a selection containing unconfigured keys is rejected with
"Invalid stores" naming exactly the offending keys.  A rejected request
carries no records. -/
theorem c6_validation_order (stores : List (String × MTGStore))
    (resp : String → String → VendorResponse) (exc : String → Option String)
    (cards_input : String) (selected_stores : List String) :
    (pyStrip cards_input = "" →
      api_handle_check_prices stores resp exc cards_input selected_stores =
        BatchOutcome.rejected Rejection.noCards ∧
      lapi_handle_check_prices stores resp exc cards_input selected_stores =
        BatchOutcome.rejected Rejection.noCards) ∧
    (pyStrip cards_input ≠ "" → selected_stores = [] →
      api_handle_check_prices stores resp exc cards_input selected_stores =
        BatchOutcome.rejected Rejection.noStoresSelected ∧
      lapi_handle_check_prices stores resp exc cards_input selected_stores =
        BatchOutcome.rejected Rejection.noStoresSelected) ∧
    (pyStrip cards_input ≠ "" → selected_stores ≠ [] →
      selected_stores.filter (fun s => !(stores.map Prod.fst).contains s) ≠ [] →
      (∃ keys, keys ≠ [] ∧
        api_handle_check_prices stores resp exc cards_input selected_stores =
          BatchOutcome.rejected (Rejection.invalidStores keys) ∧
        ∀ k, k ∈ keys ↔ (k ∈ selected_stores ∧ k ∉ stores.map Prod.fst)) ∧
      (∃ keys, keys ≠ [] ∧
        lapi_handle_check_prices stores resp exc cards_input selected_stores =
          BatchOutcome.rejected (Rejection.invalidStores keys) ∧
        ∀ k, k ∈ keys ↔ (k ∈ selected_stores ∧ k ∉ stores.map Prod.fst))) := by
  refine ⟨?_, ?_, ?_⟩
  · intro h
    constructor
    · simp only [api_handle_check_prices]
      rw [if_pos h]
    · simp only [lapi_handle_check_prices]
      rw [if_pos h]
  · intro h1 h2
    have hparse := parse_card_names_ne_nil h1
    constructor
    · simp only [api_handle_check_prices]
      rw [if_neg h1, if_neg hparse, if_pos h2]
    · simp only [lapi_handle_check_prices]
      rw [if_neg h1, if_neg hparse, if_pos h2]
  · intro h1 h2 h3
    have hparse := parse_card_names_ne_nil h1
    have hded : dedupFirst (selected_stores.filter
        (fun s => !(stores.map Prod.fst).contains s)) ≠ [] := by
      intro h0
      exact h3 (dedupFirst_eq_nil.mp h0)
    have hmemkeys : ∀ k, k ∈ dedupFirst (selected_stores.filter
        (fun s => !(stores.map Prod.fst).contains s)) ↔
        (k ∈ selected_stores ∧ k ∉ stores.map Prod.fst) := by
      intro k
      rw [mem_dedupFirst, List.mem_filter]
      simp
    constructor
    · refine ⟨dedupFirst (selected_stores.filter
        (fun s => !(stores.map Prod.fst).contains s)), hded, ?_, hmemkeys⟩
      simp only [api_handle_check_prices]
      rw [if_neg h1, if_neg hparse, if_neg h2, if_pos hded]
    · refine ⟨(dedupFirst (selected_stores.filter
        (fun s => !(stores.map Prod.fst).contains s))).insertionSort
          (fun a b : String => a ≤ b), ?_, ?_, ?_⟩
      · intro h0
        have hp := List.perm_insertionSort (fun a b : String => a ≤ b)
          (dedupFirst (selected_stores.filter
            (fun s => !(stores.map Prod.fst).contains s)))
        rw [h0] at hp
        exact hded hp.symm.eq_nil
      · simp only [lapi_handle_check_prices]
        rw [if_neg h1, if_neg hparse, if_neg h2, if_pos hded]
      · intro k
        rw [List.mem_insertionSort]
        exact hmemkeys k

/-- Witness for C6: a blank card text is rejected as "No cards provided";
a non-blank card text with no selected stores is rejected as "No stores
selected"; an unknown store key is rejected as invalid, named in the
rejection. -/
theorem c6_witness :
    api_handle_check_prices [("s", ⟨"S", StoreType.conductcommerce⟩)]
        (fun _ _ => ⟨[], [], []⟩) (fun _ => none) "   " ["s"] =
      BatchOutcome.rejected Rejection.noCards ∧
    lapi_handle_check_prices [("s", ⟨"S", StoreType.conductcommerce⟩)]
        (fun _ _ => ⟨[], [], []⟩) (fun _ => none) "Card" [] =
      BatchOutcome.rejected Rejection.noStoresSelected ∧
    (∃ keys, keys ≠ [] ∧
      api_handle_check_prices [("s", ⟨"S", StoreType.conductcommerce⟩)]
          (fun _ _ => ⟨[], [], []⟩) (fun _ => none) "Card" ["bad"] =
        BatchOutcome.rejected (Rejection.invalidStores keys) ∧
      ∀ k, k ∈ keys ↔ (k ∈ ["bad"] ∧ k ∉ ["s"])) := by
  refine ⟨?_, ?_, ?_⟩
  · exact ((c6_validation_order [("s", ⟨"S", StoreType.conductcommerce⟩)]
      (fun _ _ => ⟨[], [], []⟩) (fun _ => none) "   " ["s"]).1 (by decide)).1
  · exact ((c6_validation_order [("s", ⟨"S", StoreType.conductcommerce⟩)]
      (fun _ _ => ⟨[], [], []⟩) (fun _ => none) "Card" []).2.1 (by decide) rfl).2
  · exact ((c6_validation_order [("s", ⟨"S", StoreType.conductcommerce⟩)]
      (fun _ _ => ⟨[], [], []⟩) (fun _ => none) "Card" ["bad"]).2.2 (by decide)
      (by decide) (by decide)).1

/-! ## Claim C10 -/

theorem build_summary_eq : api_build_summary = lapi_build_summary := rfl

theorem run_batch_eq_of_no_error (av sel : List String)
    (proc : String → Except String CardRecord)
    (hok : ∀ c, ∃ r, proc c = Except.ok r) :
    ∀ (cards : List String) (st : BatchState),
      cards.foldl (api_batch_step av sel proc) st =
        cards.foldl (lapi_batch_step av sel proc) st := by
  intro cards
  induction cards with
  | nil => intro st; rfl
  | cons c rest ih =>
    intro st
    rw [List.foldl_cons, List.foldl_cons]
    have hstep : api_batch_step av sel proc st c = lapi_batch_step av sel proc st c := by
      obtain ⟨r, hr⟩ := hok c
      rw [api_batch_step, lapi_batch_step, hr]
      rfl
    rw [hstep, ih]

/-- C10: given the same configuration and identical upstream vendor
responses, a request whose validation passes (the selection is a subset of
the configured keys) and in which no card's processing raises is answered
identically — records, summary and selected-store echo — by the
serverless handler and the local server. -/
theorem c10_handlers_equivalent (stores : List (String × MTGStore))
    (resp : String → String → VendorResponse) (exc : String → Option String)
    (cards_input : String) (selected_stores : List String)
    (hexc : ∀ c, exc c = none)
    (hsub : ∀ s ∈ selected_stores, s ∈ stores.map Prod.fst) :
    api_handle_check_prices stores resp exc cards_input selected_stores =
      lapi_handle_check_prices stores resp exc cards_input selected_stores := by
  simp only [api_handle_check_prices, lapi_handle_check_prices]
  by_cases h1 : pyStrip cards_input = ""
  · rw [if_pos h1, if_pos h1]
  · rw [if_neg h1, if_neg h1]
    by_cases hparse : parse_card_names (pyStrip cards_input) = []
    · rw [if_pos hparse, if_pos hparse]
    · rw [if_neg hparse, if_neg hparse]
      by_cases h2 : selected_stores = []
      · rw [if_pos h2, if_pos h2]
      · rw [if_neg h2, if_neg h2]
        have hfilter : selected_stores.filter
            (fun s => !(stores.map Prod.fst).contains s) = [] := by
          refine List.filter_eq_nil_iff.mpr ?_
          intro s hs
          have hmem := hsub s hs
          simp [hmem]
        have hinv : dedupFirst (selected_stores.filter
            (fun s => !(stores.map Prod.fst).contains s)) = [] := by
          rw [hfilter]
          rfl
        rw [hinv]
        have hcond : ¬(([] : List String) ≠ []) := by simp
        rw [if_neg hcond, if_neg hcond]
        have hpeq : (fun card_name => match exc card_name with
              | some e => Except.error e
              | none => Except.ok (api_process_card stores resp (stores.map Prod.fst)
                  selected_stores card_name)) =
            (fun card_name => match exc card_name with
              | some e => Except.error e
              | none => Except.ok (lapi_process_card stores resp (stores.map Prod.fst)
                  selected_stores card_name)) := by
          funext c
          rw [hexc c]
          dsimp only
          rw [process_card_eq stores resp (stores.map Prod.fst) selected_stores c hsub]
        rw [← hpeq]
        have hrun : api_run_batch (stores.map Prod.fst) selected_stores
              (fun card_name => match exc card_name with
                | some e => Except.error e
                | none => Except.ok (api_process_card stores resp (stores.map Prod.fst)
                    selected_stores card_name))
              (parse_card_names (pyStrip cards_input)) =
            lapi_run_batch (stores.map Prod.fst) selected_stores
              (fun card_name => match exc card_name with
                | some e => Except.error e
                | none => Except.ok (api_process_card stores resp (stores.map Prod.fst)
                    selected_stores card_name))
              (parse_card_names (pyStrip cards_input)) := by
          rw [api_run_batch, lapi_run_batch]
          refine run_batch_eq_of_no_error _ _ _ ?_ _ _
          intro c
          refine ⟨api_process_card stores resp (stores.map Prod.fst) selected_stores c, ?_⟩
          rw [hexc c]
        rw [hrun, build_summary_eq]

/-- Witness for C10: a concrete successful one-card, one-store request. -/
theorem c10_witness :
    api_handle_check_prices [("s", ⟨"S", StoreType.conductcommerce⟩)]
        (fun _ _ => ⟨[], [], []⟩) (fun _ => none) "Card A" ["s"] =
      lapi_handle_check_prices [("s", ⟨"S", StoreType.conductcommerce⟩)]
        (fun _ _ => ⟨[], [], []⟩) (fun _ => none) "Card A" ["s"] :=
  c10_handlers_equivalent [("s", ⟨"S", StoreType.conductcommerce⟩)]
    (fun _ _ => ⟨[], [], []⟩) (fun _ => none) "Card A" ["s"]
    (fun _ => rfl) (by decide)

end MTGVillage
